import Mathlib

/-!
Verification development for the `urelic` terminal dashboard.

Strings are modelled as `List Char` (Rust `&str` slicing and searching acts on
character sequences; all text involved is ASCII).  Stateful UI code is modelled
by explicit state passing; channels and terminal I/O are out of scope and the
functions below model the pure state transformations performed by the source.
-/

namespace Urelic

/-! ## Keywords of the NRQL clause grammar (`src/tui/src/parser.rs`) -/

def kwFROM : List Char := "FROM".toList
def kwSELECT : List Char := "SELECT".toList
def kwWHERE : List Char := "WHERE".toList
def kwFACET : List Char := "FACET".toList
def kwSINCE : List Char := "SINCE".toList
def kwUNTIL : List Char := "UNTIL".toList
def kwLIMIT : List Char := "LIMIT".toList
def kwTIMESERIES : List Char := "TIMESERIES".toList
def kwTABLE : List Char := "TABLE".toList
def kwMODE : List Char := "MODE".toList

/-- All keywords scanned for by the parser. -/
def kwList : List (List Char) :=
  [kwFROM, kwSELECT, kwWHERE, kwFACET, kwSINCE, kwUNTIL, kwLIMIT, kwTIMESERIES, kwTABLE]

/-! ## nom combinators used by the parser -/

/-- Model of nom `tag(pat)`: succeeds iff `pat` is a prefix of the input,
returning `(remainder, matched)`. -/
def tag (pat input : List Char) : Option (List Char × List Char) :=
  if pat.isPrefixOf input then some (input.drop pat.length, pat) else none

/-- Model of nom `take_until(pat)` (complete): consumes input up to the first
occurrence of `pat`, returning `(remainder starting at pat, consumed)`;
fails when `pat` does not occur. -/
def take_until (pat : List Char) : List Char → Option (List Char × List Char)
  | [] => none
  | c :: cs =>
    if pat.isPrefixOf (c :: cs) then some (c :: cs, [])
    else
      match take_until pat cs with
      | some (rem, pre) => some (rem, c :: pre)
      | none => none

/-- Rust `str::trim`: whitespace removed from both ends. -/
def trim (l : List Char) : List Char :=
  ((l.dropWhile Char.isWhitespace).reverse.dropWhile Char.isWhitespace).reverse

/-- Rust `str::contains` (substring search). -/
def str_contains (l pat : List Char) : Bool :=
  l.tails.any fun t => pat.isPrefixOf t

/-! ## The clause parsers of `parser.rs` -/

def parse_timeseries (input : List Char) : Option (List Char × List Char) :=
  match tag kwTIMESERIES input with
  | some r => some r
  | none => tag kwTABLE input

def parse_limit (input : List Char) : Option (List Char × List Char) :=
  match tag kwLIMIT input with
  | none => none
  | some (remainder, _) =>
    match take_until kwTIMESERIES remainder with
    | some r => some r
    | none => take_until kwTABLE remainder

def parse_until (input : List Char) : Option (List Char × List Char) :=
  match tag kwUNTIL input with
  | none => none
  | some (remainder, _) => take_until kwLIMIT remainder

def parse_since (input : List Char) : Option (List Char × List Char) :=
  match tag kwSINCE input with
  | none => none
  | some (remainder, _) => take_until kwUNTIL remainder

def parse_facet (input : List Char) : Option (List Char × List Char) :=
  match tag kwFACET input with
  | none => none
  | some (remainder, _) => take_until kwSINCE remainder

def parse_where (input : List Char) : Option (List Char × List Char) :=
  match tag kwWHERE input with
  | none => none
  | some (remainder, _) =>
    match take_until kwFACET remainder with
    | some r => some r
    | none => take_until kwSINCE remainder

def parse_select (input : List Char) : Option (List Char × List Char) :=
  match tag kwSELECT input with
  | none => none
  | some (remainder, _) => take_until kwWHERE remainder

def parse_from (input : List Char) : Option (List Char × List Char) :=
  match tag kwFROM input with
  | none => none
  | some (remainder, _) => take_until kwSELECT remainder

/-- The clause named by each `anyhow!` error message of `parse_nrql`
("Parsing Error! : FROM", …, "Parsing error! : MODE"). -/
inductive Clause where
  | FROM | SELECT | WHERE | SINCE | UNTIL | LIMIT | MODE
deriving DecidableEq, Repr

/-- `parse_nrql`: scans the fixed clause order, FACET being optional
(`unwrap_or`), and builds the output map (modelled as the association list in
insertion order, every key distinct). -/
def parse_nrql (input : List Char) :
    Except Clause (List (List Char × List Char)) :=
  match parse_from input with
  | none => .error .FROM
  | some (r1, from_v) =>
  match parse_select r1 with
  | none => .error .SELECT
  | some (r2, select_v) =>
  match parse_where r2 with
  | none => .error .WHERE
  | some (r3, where_v) =>
  match (parse_facet r3).getD (r3, []) with
  | (r4, facet_v) =>
  match parse_since r4 with
  | none => .error .SINCE
  | some (r5, since_v) =>
  match parse_until r5 with
  | none => .error .UNTIL
  | some (r6, until_v) =>
  match parse_limit r6 with
  | none => .error .LIMIT
  | some (r7, limit_v) =>
  match parse_timeseries r7 with
  | none => .error .MODE
  | some (_, mode_v) =>
  .ok [(kwFROM, trim from_v), (kwSELECT, trim select_v), (kwWHERE, trim where_v),
       (kwFACET, trim facet_v), (kwSINCE, trim since_v), (kwUNTIL, trim until_v),
       (kwLIMIT, trim limit_v), (kwMODE, trim mode_v)]

/-! ## `NRQLQuery` and its rendering (`src/tui/src/query.rs`) -/

structure NRQLQuery where
  from_ : List Char
  select : List Char
  where_ : List Char
  facet : List Char
  since : List Char
  until_ : List Char
  limit : List Char
  mode : List Char
deriving DecidableEq, Repr

instance : Inhabited NRQLQuery := ⟨⟨[], [], [], [], [], [], [], []⟩⟩

/-- `NRQLQuery::to_string` (always returns `Ok`, so modelled as the string it
builds): clauses in fixed order; the projection gains the literal
" as value" suffix; FACET is emitted only when non-empty. -/
def NRQLQuery.to_string (q : NRQLQuery) : List Char :=
  ("FROM ".toList ++ q.from_ ++ " ".toList) ++
  ("SELECT ".toList ++ q.select ++ " as value ".toList) ++
  ("WHERE ".toList ++ q.where_ ++ " ".toList) ++
  (if q.facet = [] then [] else "FACET ".toList ++ q.facet ++ " ".toList) ++
  ("SINCE ".toList ++ q.since ++ " ".toList) ++
  ("UNTIL ".toList ++ q.until_ ++ " ".toList) ++
  ("LIMIT ".toList ++ q.limit ++ " ".toList) ++
  q.mode

/-- One iteration of the key-matching loop in `<&str as NRQL>::to_nrql`;
`none` models the `_ => panic!()` arm. -/
def applyKV (q : NRQLQuery) (kv : List Char × List Char) : Option NRQLQuery :=
  if kv.1 = kwFROM then some { q with from_ := kv.2 }
  else if kv.1 = kwSELECT then some { q with select := kv.2 }
  else if kv.1 = kwWHERE then some { q with where_ := kv.2 }
  else if kv.1 = kwFACET then some { q with facet := kv.2 }
  else if kv.1 = kwSINCE then some { q with since := kv.2 }
  else if kv.1 = kwUNTIL then some { q with until_ := kv.2 }
  else if kv.1 = kwLIMIT then some { q with limit := kv.2 }
  else if kv.1 = kwMODE then some { q with mode := kv.2 }
  else none

/-- Result of `to_nrql`: a parse error propagates (`?`); `panicked` models the
`panic!()` arm of the key match. -/
inductive TRes where
  | parseErr (c : Clause)
  | panicked
  | ok (q : NRQLQuery)
deriving DecidableEq, Repr

/-- `<&str as NRQL>::to_nrql`. -/
def to_nrql (input : List Char) : TRes :=
  match parse_nrql input with
  | .error c => .parseErr c
  | .ok parts =>
    match parts.foldlM applyKV (default : NRQLQuery) with
    | none => .panicked
    | some q => .ok q

/-! ## Occurrence predicates used to state the grammar hypotheses -/

/-- `K` occurs nowhere in `l` (no suffix of `l` starts with `K`). -/
def NoOcc (K l : List Char) : Prop := ∀ t ∈ l.tails, ¬ K <+: t

instance (K l : List Char) : Decidable (NoOcc K l) := List.decidableBAll _ _

/-- No occurrence of `K` starts inside `b`, even one that would continue past
the end of `b` into adjacent text. -/
def NoSpanOcc (K b : List Char) : Prop :=
  ∀ t ∈ b.tails, t = [] ∨ ¬ K.take t.length <+: t

instance (K b : List Char) : Decidable (NoSpanOcc K b) := List.decidableBAll _ _

/-- First character, if any, is not whitespace. -/
def headOk : List Char → Bool
  | [] => true
  | c :: _ => !c.isWhitespace

/-- A clause body of the mandatory-clause grammar: non-empty, contains no
keyword as a substring, and carries no surrounding whitespace of its own
(the grammar separates clauses by single spaces). -/
def GoodBody (b : List Char) : Prop :=
  b ≠ [] ∧ (∀ K ∈ kwList, NoOcc K b) ∧ headOk b = true ∧ headOk b.reverse = true

instance (b : List Char) : Decidable (GoodBody b) := by
  unfold GoodBody; infer_instance

/-- A clause body free of every keyword (the part of `GoodBody` the failure
cases need). -/
def KwFree (b : List Char) : Prop := ∀ K ∈ kwList, NoOcc K b

instance (b : List Char) : Decidable (KwFree b) := List.decidableBAll _ _

/-! ## Canonical grammar-conforming inputs -/

def tailLIMIT (l m : List Char) : List Char := kwLIMIT ++ ' ' :: l ++ ' ' :: m

def tailUNTIL (u l m : List Char) : List Char := kwUNTIL ++ ' ' :: u ++ ' ' :: tailLIMIT l m

def tailSINCE (si u l m : List Char) : List Char :=
  kwSINCE ++ ' ' :: si ++ ' ' :: tailUNTIL u l m

/-- Optional FACET segment. -/
def facetSeg : Option (List Char) → List Char → List Char
  | none, rest => rest
  | some x, rest => kwFACET ++ ' ' :: x ++ ' ' :: rest

def tailWHERE (w : List Char) (fc : Option (List Char)) (si u l m : List Char) : List Char :=
  kwWHERE ++ ' ' :: w ++ ' ' :: facetSeg fc (tailSINCE si u l m)

def tailSELECT (s w : List Char) (fc : Option (List Char)) (si u l m : List Char) : List Char :=
  kwSELECT ++ ' ' :: s ++ ' ' :: tailWHERE w fc si u l m

/-- A canonical input satisfying the mandatory-clause grammar: all clauses in
order, single-space separated, FACET optional, `m` the mode keyword. -/
def mkInput (f s w : List Char) (fc : Option (List Char)) (si u l m : List Char) : List Char :=
  kwFROM ++ ' ' :: f ++ ' ' :: tailSELECT s w fc si u l m

/-- The literal result-binding suffix inserted by rendering. -/
def asValue : List Char := " as value".toList

/-- A canonical input with the given mandatory clause removed entirely
(FACET stays absent throughout). -/
def mkInputDrop (k : Clause) (f s w si u l m : List Char) : List Char :=
  match k with
  | .FROM => tailSELECT s w none si u l m
  | .SELECT => kwFROM ++ ' ' :: f ++ ' ' :: tailWHERE w none si u l m
  | .WHERE => kwFROM ++ ' ' :: f ++ ' ' :: (kwSELECT ++ ' ' :: s ++ ' ' :: tailSINCE si u l m)
  | .SINCE =>
    kwFROM ++ ' ' :: f ++ ' ' ::
      (kwSELECT ++ ' ' :: s ++ ' ' :: (kwWHERE ++ ' ' :: w ++ ' ' :: tailUNTIL u l m))
  | .UNTIL =>
    kwFROM ++ ' ' :: f ++ ' ' ::
      (kwSELECT ++ ' ' :: s ++ ' ' ::
        (kwWHERE ++ ' ' :: w ++ ' ' :: (kwSINCE ++ ' ' :: si ++ ' ' :: tailLIMIT l m)))
  | .LIMIT =>
    kwFROM ++ ' ' :: f ++ ' ' ::
      (kwSELECT ++ ' ' :: s ++ ' ' ::
        (kwWHERE ++ ' ' :: w ++ ' ' ::
          (kwSINCE ++ ' ' :: si ++ ' ' :: (kwUNTIL ++ ' ' :: u ++ ' ' :: m))))
  | .MODE =>
    kwFROM ++ ' ' :: f ++ ' ' ::
      (kwSELECT ++ ' ' :: s ++ ' ' ::
        (kwWHERE ++ ' ' :: w ++ ' ' ::
          (kwSINCE ++ ' ' :: si ++ ' ' :: (kwUNTIL ++ ' ' :: u ++ ' ' :: (kwLIMIT ++ ' ' :: l)))))

/-- The clause the parser actually reports when clause `k` is the missing one
and no FACET clause is present: `FROM` for a missing `FROM`; otherwise the
mandatory clause immediately preceding `k` in scan order, since that step
scans for `k` as its terminator. -/
def expectedErr : Clause → Clause
  | .FROM => .FROM
  | .SELECT => .FROM
  | .WHERE => .SELECT
  | .SINCE => .WHERE
  | .UNTIL => .SINCE
  | .LIMIT => .UNTIL
  | .MODE => .LIMIT

/-- A canonical input containing a FACET clause with the given mandatory
clause removed. -/
def mkInputDropFacet (k : Clause) (f s w fc si u l m : List Char) : List Char :=
  match k with
  | .FROM => tailSELECT s w (some fc) si u l m
  | .SELECT => kwFROM ++ ' ' :: f ++ ' ' :: tailWHERE w (some fc) si u l m
  | .WHERE =>
    kwFROM ++ ' ' :: f ++ ' ' ::
      (kwSELECT ++ ' ' :: s ++ ' ' :: (kwFACET ++ ' ' :: fc ++ ' ' :: tailSINCE si u l m))
  | .SINCE =>
    kwFROM ++ ' ' :: f ++ ' ' ::
      (kwSELECT ++ ' ' :: s ++ ' ' ::
        (kwWHERE ++ ' ' :: w ++ ' ' ::
          (kwFACET ++ ' ' :: fc ++ ' ' :: tailUNTIL u l m)))
  | .UNTIL =>
    kwFROM ++ ' ' :: f ++ ' ' ::
      (kwSELECT ++ ' ' :: s ++ ' ' ::
        (kwWHERE ++ ' ' :: w ++ ' ' ::
          (kwFACET ++ ' ' :: fc ++ ' ' ::
            (kwSINCE ++ ' ' :: si ++ ' ' :: tailLIMIT l m))))
  | .LIMIT =>
    kwFROM ++ ' ' :: f ++ ' ' ::
      (kwSELECT ++ ' ' :: s ++ ' ' ::
        (kwWHERE ++ ' ' :: w ++ ' ' ::
          (kwFACET ++ ' ' :: fc ++ ' ' ::
            (kwSINCE ++ ' ' :: si ++ ' ' ::
              (kwUNTIL ++ ' ' :: u ++ ' ' :: m)))))
  | .MODE =>
    kwFROM ++ ' ' :: f ++ ' ' ::
      (kwSELECT ++ ' ' :: s ++ ' ' ::
        (kwWHERE ++ ' ' :: w ++ ' ' ::
          (kwFACET ++ ' ' :: fc ++ ' ' ::
            (kwSINCE ++ ' ' :: si ++ ' ' ::
              (kwUNTIL ++ ' ' :: u ++ ' ' :: (kwLIMIT ++ ' ' :: l))))))

/-- The clause reported when clause `k` is missing from a FACET-carrying
input: as `expectedErr`, except that a missing SINCE is reported as SINCE
itself — `parse_where`'s FACET scan succeeds, `parse_facet`'s failed SINCE
scan is absorbed by the `unwrap_or` fallback, and `parse_since`'s own tag
then fails. -/
def expectedErrFacet : Clause → Clause
  | .FROM => .FROM
  | .SELECT => .FROM
  | .WHERE => .SELECT
  | .SINCE => .SINCE
  | .UNTIL => .SINCE
  | .LIMIT => .UNTIL
  | .MODE => .LIMIT

/-! ## Numeric values of the acquisition pipeline

The `f64` values carried by timeseries rows are modelled as rationals plus a
positive-infinity point (the only non-finite value these claims mention);
`min`/`max` mirror `f64::min`/`f64::max` on this subset. -/

inductive F64 where
  | fin (q : ℚ)
  | inf
deriving DecidableEq

def F64.min : F64 → F64 → F64
  | .inf, y => y
  | .fin a, .inf => .fin a
  | .fin a, .fin b => .fin (Min.min a b)

def F64.max : F64 → F64 → F64
  | .inf, _ => .inf
  | .fin _, .inf => .inf
  | .fin a, .fin b => .fin (Max.max a b)

/-- `f64::MAX`, the largest finite double, as an exact rational. -/
def f64MAX : F64 := .fin (2 ^ 1024 - 2 ^ 971)

structure Bounds where
  mins : F64 × F64
  maxes : F64 × F64
deriving DecidableEq

/-- `Bounds::default()` (derived `Default`: zeroes). -/
def Bounds.default : Bounds := ⟨(.fin 0, .fin 0), (.fin 0, .fin 0)⟩

/-- A response row.  The `server::timeseries` types are not under `src/`;
fields are the ones `refresh_timeseries` reads, and `Timeseries::from` is
modelled as the identity on them (same field names on both types). -/
structure TimeseriesResult where
  begin_time_seconds : F64
  end_time_seconds : F64
  facet : List Char
  value : F64

/-- Association-list lookup (models `BTreeMap` lookup; keys stay distinct). -/
def alookup {β : Type _} : List (List Char × β) → List Char → Option β
  | [], _ => none
  | kv :: rest, k => if kv.1 = k then some kv.2 else alookup rest k

/-- Update the value stored at key `k` in place. -/
def assocUpdate {β : Type _} (m : List (List Char × β)) (k : List Char) (g : β → β) :
    List (List Char × β) :=
  m.map fun kv => if kv.1 = k then (kv.1, g kv.2) else kv

/-- One iteration of the bounds loop of `refresh_timeseries` (backend.rs
lines 80–86). -/
def boundsStep (acc : (F64 × F64) × (F64 × F64)) (point : TimeseriesResult) :
    (F64 × F64) × (F64 × F64) :=
  ((acc.1.1.min point.end_time_seconds, acc.1.2.min point.value),
   (acc.2.1.max point.end_time_seconds, acc.2.2.max point.value))

/-- The bounds fold of `refresh_timeseries` (backend.rs lines 77–86): min and
max folded over every row, mins seeded at `(f64::MAX, f64::MAX)`, maxes at
`(0, 0)`; the time axis reads `end_time_seconds`. -/
def computeBounds (data : List TimeseriesResult) : Bounds :=
  let r := data.foldl boundsStep ((f64MAX, f64MAX), (.fin 0, .fin 0))
  ⟨r.1, r.2⟩

/-- Modelled from the spec: the seed the spec's words claim for the min pair,
"seeded at `(+infinity, +infinity)` for mins". -/
def specMinSeed : F64 × F64 := (F64.inf, F64.inf)

/-- One iteration of the per-group reduction loop of `refresh_timeseries`
(backend.rs lines 90–99): an existing group gets `(end_time_seconds, value)`
appended; a new group is created with `[(begin_time_seconds, value)]`. -/
def buildFacetsStep (facets : List (List Char × List (F64 × F64)))
    (data : TimeseriesResult) : List (List Char × List (F64 × F64)) :=
  if (alookup facets data.facet).isSome then
    assocUpdate facets data.facet fun v => v ++ [(data.end_time_seconds, data.value)]
  else facets ++ [(data.facet, [(data.begin_time_seconds, data.value)])]

/-- The per-group reduction of `refresh_timeseries` (backend.rs lines 88–99). -/
def buildFacets (rows : List TimeseriesResult) : List (List Char × List (F64 × F64)) :=
  rows.foldl buildFacetsStep []

/-! ## Dataset store (`app.rs`; the `Dataset` record itself lives in the
missing `dataset.rs`, its fields are the ones `app.rs` constructs) -/

structure Dataset where
  query_alias : Option (List Char)
  facets : List (List Char × List (F64 × F64))
  bounds : Bounds
  selection : List Char
  has_data : Bool
deriving DecidableEq

/-- The timeseries payload drained in `App::run` (its type is not under
`src/`; fields are the ones `app.rs` reads). -/
structure TimeseriesPayload where
  query : List Char
  data : List (List Char × List (F64 × F64))
  bounds : Bounds
  selection : List Char
  facets : List (List Char)

/-- `App::rename_query`: vacant entry → placeholder with `has_data = false`;
occupied entry → only the alias is modified. -/
def rename_query (ds : List (List Char × Dataset)) (query alias_v : List Char) :
    List (List Char × Dataset) :=
  if (alookup ds query).isNone then
    ds ++ [(query, ⟨some alias_v, [], Bounds.default, [], false⟩)]
  else
    assocUpdate ds query fun d => { d with query_alias := some alias_v }

/-- The payload drain of `App::run` for `PayloadType::Timeseries`: vacant
entry → fresh entry with no alias and `has_data = true`; occupied entry →
series, bounds and `has_data` updated in place. -/
def upsert_timeseries (ds : List (List Char × Dataset)) (p : TimeseriesPayload) :
    List (List Char × Dataset) :=
  if (alookup ds p.query).isNone then
    ds ++ [(p.query, ⟨none, p.data, p.bounds, p.selection, true⟩)]
  else
    assocUpdate ds p.query fun d =>
      { d with facets := p.data, bounds := p.bounds, has_data := true }

/-! ## Log buffer and filtering -/

/-- The log buffer (`Logs`; its declaration lives in the missing
`dataset.rs`, the fields are the ones `app.rs` constructs and reads).
`filters` models the `HashSet<String>` as a duplicate-free list. -/
structure Logs where
  logs : List (List Char × List (List Char))
  log_item_list_state : Option Nat
  selected : List Char
  filters : List (List Char)
deriving DecidableEq

/-- `App::add_filter`: records the filter and destructively retains only the
entries in which some line contains the new filter. -/
def add_filter (lg : Logs) (filter : List Char) : Logs :=
  { lg with
    filters := if filter ∈ lg.filters then lg.filters else lg.filters ++ [filter],
    logs := lg.logs.filter fun kv => kv.2.any fun line => str_contains line filter }

/-! ## UI focus state machine -/

inductive Focus where
  | QueryInput | Rename | Dashboard | SessionLoad | SessionSave | Default | Log | LogDetail
  | Search
deriving DecidableEq, Repr

inductive InputMode where
  | Normal | Input
deriving DecidableEq, Repr

inductive Tab where
  | Graph | Logs
deriving DecidableEq, Repr

structure UIFocus where
  tab : Tab
  panel : Focus
  input_mode : InputMode
  loading : Bool
deriving DecidableEq, Repr

/-- `UIFocus::default()`: tab is `Logs` (the `Graph` line is commented out in
the source). -/
def UIFocus.default : UIFocus := ⟨.Logs, .Default, .Normal, false⟩

/-- `App::next_tab`. -/
def next_tab : Tab → Tab
  | .Graph => .Logs
  | .Logs => .Logs

/-- `App::previous_tab`. -/
def previous_tab : Tab → Tab
  | .Graph => .Logs
  | .Logs => .Logs

/-- Every focus mutation performed by the `App::run` control loop, one
constructor per `set_focus`/tab call site. -/
inductive FocusStep : UIFocus → UIFocus → Prop where
  | sessionLoadForce (f : UIFocus) :
      FocusStep f { f with panel := .SessionLoad, input_mode := .Input }
  | quitPrompt (f : UIFocus) :
      FocusStep f { f with panel := .SessionSave, input_mode := .Input }
  | searchKey (f : UIFocus) :
      FocusStep f { f with panel := .Search, input_mode := .Input }
  | editKey (f : UIFocus) :
      FocusStep f { f with panel := .QueryInput, input_mode := .Input }
  | renameKey (f : UIFocus) :
      FocusStep f { f with panel := .Rename, input_mode := .Input }
  | dashOn (f : UIFocus) : FocusStep f { f with panel := .Dashboard }
  | dashOff (f : UIFocus) : FocusStep f { f with panel := .Default }
  | tabKey (f : UIFocus) : FocusStep f { f with tab := next_tab f.tab }
  | tabBack (f : UIFocus) : FocusStep f { f with tab := previous_tab f.tab }
  | escNormal (f : UIFocus) : FocusStep f { f with panel := .Default }
  | enterToDetail (f : UIFocus) : FocusStep f { f with panel := .LogDetail }
  | enterFromDetail (f : UIFocus) : FocusStep f { f with panel := .Default }
  | enterToLog (f : UIFocus) : FocusStep f { f with panel := .Log }
  | submitQueryLoading (f : UIFocus) : FocusStep f { f with loading := true }
  | submitDone (f : UIFocus) :
      FocusStep f { f with panel := .Default, input_mode := .Normal }
  | escInput (f : UIFocus) :
      FocusStep f { f with panel := .Default, input_mode := .Normal }
  | logPayload (f : UIFocus) : FocusStep f { f with loading := false }

/-- Focus states reachable from the initial UI state. -/
inductive ReachableFocus : UIFocus → Prop where
  | init : ReachableFocus UIFocus.default
  | step {s t : UIFocus} : ReachableFocus s → FocusStep s t → ReachableFocus t

/-! ## Navigation and deletion (`App::delete_query`, `App::next`,
`App::previous`) -/

/-- The slice of `App` state these handlers read and write.  The two
`ListState` values are modelled by their `selected()` contents. -/
structure AppNav where
  focus : UIFocus
  list_state : Option Nat
  log_list_state : Option Nat
  datasets : List (List Char × Dataset)
  datasets_selected : List Char
  logs : Logs
deriving DecidableEq

/-- Modelled from the spec: `Datasets::remove_entry(i)` (in the missing
`dataset.rs`) resolves visual index `i` to its entry and removes it
(spec section 4.3 `remove(index)`). -/
def datasets_remove_entry (ds : List (List Char × Dataset)) (i : Nat) :
    List (List Char × Dataset) :=
  ds.eraseIdx i

/-- Modelled from the spec: `Datasets::select(i)` stores the selection marker
for the entry at visual index `i`. -/
def datasets_select (ds : List (List Char × Dataset)) (i : Nat) (old : List Char) :
    List Char :=
  match ds.get? i with
  | some kv => kv.1
  | none => old

/-- Modelled from the spec: `Logs::select(i)` stores the selected log key. -/
def logs_select (lg : Logs) (i : Nat) : Logs :=
  { lg with selected := match lg.logs.get? i with
      | some kv => kv.1
      | none => lg.selected }

/-- `Logs::selected()`: the lines stored under the selected key. -/
def logs_selected (lg : Logs) : Option (List (List Char)) :=
  alookup lg.logs lg.selected

/-- `App::delete_query`.  `none` models the panic of
`self.list_state.selected().unwrap()` when nothing is selected. -/
def delete_query (app : AppNav) : Option AppNav :=
  match app.list_state with
  | none => none
  | some i => some { app with datasets := datasets_remove_entry app.datasets i }

/-- `App::next`.  `none` models the panic of `self.logs.selected().unwrap()`. -/
def next (app : AppNav) : Option AppNav :=
  match app.focus.tab with
  | .Graph =>
    if app.datasets.isEmpty then some app
    else
      let i := match app.list_state with
        | some i => if i ≥ app.datasets.length - 1 then 0 else i + 1
        | none => 0
      some { app with list_state := some i,
                      datasets_selected := datasets_select app.datasets i app.datasets_selected }
  | .Logs =>
    match app.focus.panel with
    | .Log =>
      if app.logs.logs.isEmpty then some app
      else
        match app.logs.log_item_list_state with
        | some i =>
          match logs_selected app.logs with
          | none => none
          | some lines =>
            let j := if i ≥ lines.length - 1 then 0 else i + 1
            some { app with logs := { app.logs with log_item_list_state := some j } }
        | none => some { app with logs := { app.logs with log_item_list_state := some 0 } }
    | _ =>
      if app.logs.logs.isEmpty then some app
      else
        let i := match app.log_list_state with
          | some i => if i ≥ app.logs.logs.length - 1 then 0 else i + 1
          | none => 0
        some { app with log_list_state := some i, logs := logs_select app.logs i }

/-- `App::previous`. -/
def previous (app : AppNav) : Option AppNav :=
  match app.focus.tab with
  | .Graph =>
    if app.datasets.isEmpty then some app
    else
      let i := match app.list_state with
        | some i => if i = 0 then app.datasets.length - 1 else i - 1
        | none => 0
      some { app with list_state := some i,
                      datasets_selected := datasets_select app.datasets i app.datasets_selected }
  | .Logs =>
    match app.focus.panel with
    | .Log =>
      if app.logs.logs.isEmpty then some app
      else
        match app.logs.log_item_list_state with
        | some i =>
          match logs_selected app.logs with
          | none => none
          | some lines =>
            let j := if i = 0 then lines.length - 1 else i - 1
            some { app with logs := { app.logs with log_item_list_state := some j } }
        | none => some { app with logs := { app.logs with log_item_list_state := some 0 } }
    | _ =>
      if app.logs.logs.isEmpty then some app
      else
        let i := match app.log_list_state with
          | some i => if i = 0 then app.logs.logs.length - 1 else i - 1
          | none => 0
        some { app with log_list_state := some i, logs := logs_select app.logs i }

/-! ## Log-detail correlation query (`App::run`, `Focus::LogDetail` Enter) -/

/-- Rust `char::is_ascii_punctuation`. -/
def is_ascii_punctuation (c : Char) : Bool :=
  (0x21 ≤ c.toNat && c.toNat ≤ 0x2F) || (0x3A ≤ c.toNat && c.toNat ≤ 0x40) ||
  (0x5B ≤ c.toNat && c.toNat ≤ 0x60) || (0x7B ≤ c.toNat && c.toNat ≤ 0x7E)

/-- Rust `str::trim_matches` with a predicate pattern: repeated matches
removed from both the leading and the trailing end. -/
def trim_matches (p : Char → Bool) (l : List Char) : List Char :=
  ((l.dropWhile p).reverse.dropWhile p).reverse

/-- Rust `str::split(' ')` (splits at every single space, keeping empty
pieces; never returns an empty list). -/
def splitSp : List Char → List (List Char)
  | [] => [[]]
  | c :: cs =>
    if c = ' ' then [] :: splitSp cs
    else
      match splitSp cs with
      | [] => [[c]]
      | t :: ts => (c :: t) :: ts

/-- The ASCII single-quote character. -/
def squote : Char := Char.ofNat 39

/-- `log.split(' ').last().unwrap().trim_matches(|p| char::is_ascii_punctuation(&p))`;
`none` models the `.unwrap()` panic (unreachable: `split` is never empty). -/
def correlation_id (log : List Char) : Option (List Char) :=
  match (splitSp log).getLast? with
  | none => none
  | some tok => some (trim_matches is_ascii_punctuation tok)

/-- The correlation query format string with the id spliced in. -/
def mkCorrelationQuery (id : List Char) : List Char :=
  "SELECT * FROM Log WHERE allColumnSearch(".toList ++ [squote] ++ id ++ [squote] ++
    ", insensitive: true)".toList

/-- The whole Enter handler of the log-detail view: extract the token, build
the query (which `add_query` then submits). -/
def log_detail_enter (line : List Char) : Option (List Char) :=
  (correlation_id line).map mkCorrelationQuery

/-! ## Helper lemmas: prefixes, suffixes and occurrences -/

theorem isPrefixOf_iff_pfx (a b : List Char) : a.isPrefixOf b = true ↔ a <+: b := by
  induction a generalizing b with
  | nil =>
    refine iff_of_true ?_ ⟨b, rfl⟩
    simp
  | cons x xs ih =>
    cases b with
    | nil =>
      simp only [List.isPrefixOf]
      constructor
      · intro h; cases h
      · rintro ⟨t, ht⟩; cases ht
    | cons y ys =>
      simp only [List.isPrefixOf, Bool.and_eq_true, beq_iff_eq, ih]
      constructor
      · rintro ⟨rfl, t, rfl⟩; exact ⟨t, rfl⟩
      · rintro ⟨t, ht⟩
        injection ht with h1 h2
        exact ⟨h1, t, h2⟩

theorem noOcc_iff (K l : List Char) : NoOcc K l ↔ ∀ t, t <:+ l → ¬ K <+: t := by
  simp [NoOcc, List.mem_tails]

theorem noOcc_ne_nil {K l : List Char} (h : NoOcc K l) : K ≠ [] := by
  intro hK
  subst hK
  exact (noOcc_iff [] l).mp h [] List.nil_suffix ⟨[], rfl⟩

theorem noOcc_nil {K : List Char} (hK : K ≠ []) : NoOcc K [] := by
  rw [noOcc_iff]
  intro t ht hc
  rw [List.suffix_nil.mp ht] at hc
  obtain ⟨u, hu⟩ := hc
  exact hK (List.append_eq_nil.mp hu).1

theorem pfx_head_eq (x y : Char) (xs ys : List Char) (h : x :: xs <+: y :: ys) : x = y := by
  obtain ⟨u, hu⟩ := h
  simpa using congrArg List.head? hu

theorem pfx_take_of_pfx_append (K b r : List Char) (h : K <+: b ++ r) :
    K.take b.length <+: b := by
  obtain ⟨u, hu⟩ := h
  have h2 := congrArg (List.take b.length) hu
  rw [List.take_append_eq_append_take, List.take_left] at h2
  exact ⟨_, h2⟩

theorem not_pfx_append (K b r : List Char) (h : ¬ K.take b.length <+: b) :
    ¬ K <+: b ++ r :=
  fun hc => h (pfx_take_of_pfx_append K b r hc)

theorem kw_not_pfx_sep (K t₀ rest : List Char) (hsp : ' ' ∉ K)
    (h : ∀ s, s <:+ t₀ → ¬ K <+: s) : ¬ K <+: t₀ ++ ' ' :: rest := by
  intro hc
  by_cases hlen : K.length ≤ t₀.length
  · have h1 := pfx_take_of_pfx_append K t₀ (' ' :: rest) hc
    rw [List.take_of_length_le hlen] at h1
    exact h t₀ List.suffix_rfl h1
  · push_neg at hlen
    obtain ⟨u, hu⟩ := hc
    have hK : K = t₀ ++ (' ' :: rest).take (K.length - t₀.length) := by
      have h2 := congrArg (List.take K.length) hu
      rw [List.take_left, List.take_append_eq_append_take,
        List.take_of_length_le (Nat.le_of_lt hlen)] at h2
      exact h2
    apply hsp
    rw [hK]
    obtain ⟨n, hn⟩ : ∃ n, K.length - t₀.length = n + 1 :=
      ⟨_, (Nat.succ_pred_eq_of_pos (Nat.sub_pos_of_lt hlen)).symm⟩
    rw [hn, List.take_succ_cons]
    exact List.mem_append_right _ (List.mem_cons_self _ _)

theorem suffix_append_cases (b r t : List Char) (h : t <:+ b ++ r) :
    t <:+ r ∨ ∃ t₁, t₁ <:+ b ∧ t₁ ≠ [] ∧ t = t₁ ++ r := by
  induction b with
  | nil => left; simpa using h
  | cons x b' ih =>
    rw [List.cons_append] at h
    rcases List.suffix_cons_iff.mp h with h1 | h2
    · right
      exact ⟨x :: b', List.suffix_rfl, by simp, by simp [h1]⟩
    · rcases ih h2 with h3 | ⟨t₁, ht₁, hne, rfl⟩
      · left; exact h3
      · right; exact ⟨t₁, ht₁.trans (List.suffix_cons x b'), hne, rfl⟩

theorem not_pfx_cons_space {K : List Char} (hsp : ' ' ∉ K) (hK : K ≠ []) (r : List Char) :
    ¬ K <+: ' ' :: r := by
  intro hc
  cases K with
  | nil => exact hK rfl
  | cons k K' =>
    exact hsp ((pfx_head_eq k ' ' _ _ hc) ▸ List.mem_cons_self _ _)

theorem noOcc_cons_space {K r : List Char} (hsp : ' ' ∉ K) (hr : NoOcc K r) :
    NoOcc K (' ' :: r) := by
  rw [noOcc_iff]
  intro t ht
  rcases List.suffix_cons_iff.mp ht with rfl | h2
  · exact not_pfx_cons_space hsp (noOcc_ne_nil hr) r
  · exact (noOcc_iff K r).mp hr t h2

theorem noOcc_body_sep {K b r : List Char} (hsp : ' ' ∉ K) (hb : NoOcc K b)
    (hr : NoOcc K r) : NoOcc K (b ++ ' ' :: r) := by
  rw [noOcc_iff]
  intro t ht
  rcases suffix_append_cases b (' ' :: r) t ht with h1 | ⟨t₁, ht₁, _, rfl⟩
  · exact (noOcc_iff K (' ' :: r)).mp (noOcc_cons_space hsp hr) t h1
  · exact kw_not_pfx_sep K t₁ r hsp
      (fun s hs => (noOcc_iff K b).mp hb s (hs.trans ht₁))

theorem noOcc_kw_append {K b r : List Char} (hb : NoSpanOcc K b) (hr : NoOcc K r) :
    NoOcc K (b ++ r) := by
  rw [noOcc_iff]
  intro t ht
  rcases suffix_append_cases b r t ht with h1 | ⟨t₁, ht₁, hne, rfl⟩
  · exact (noOcc_iff K r).mp hr t h1
  · refine not_pfx_append K t₁ r ?_
    rcases hb t₁ ((List.mem_tails _ _).mpr ht₁) with h | h
    · exact absurd h hne
    · exact h

/-! ## Helper lemmas: `tag` and `take_until` -/

theorem tag_append (pat r : List Char) : tag pat (pat ++ r) = some (r, pat) := by
  unfold tag
  rw [if_pos ((isPrefixOf_iff_pfx pat (pat ++ r)).mpr ⟨r, rfl⟩), List.drop_left]

theorem tag_none {pat l : List Char} (h : ¬ pat <+: l) : tag pat l = none := by
  unfold tag
  rw [if_neg (fun hc => h ((isPrefixOf_iff_pfx pat l).mp hc))]

theorem tag_sound {pat l rem x : List Char} (h : tag pat l = some (rem, x)) :
    pat <+: l ∧ rem <:+ l ∧ x = pat := by
  unfold tag at h
  split at h
  · injection h with h1
    injection h1 with h2 h3
    refine ⟨(isPrefixOf_iff_pfx pat l).mp (by assumption), ?_, h3.symm⟩
    rw [← h2]
    exact List.drop_suffix _ _
  · cases h

theorem take_until_append_eq (pat a r : List Char) (hp : pat ≠ []) (hr : pat <+: r)
    (hnot : ∀ t, t <:+ a → t ≠ [] → ¬ pat <+: t ++ r) :
    take_until pat (a ++ r) = some (r, a) := by
  induction a with
  | nil =>
    cases r with
    | nil =>
      obtain ⟨u, hu⟩ := hr
      exact absurd (List.append_eq_nil.mp hu).1 hp
    | cons c cs =>
      rw [List.nil_append]
      unfold take_until
      rw [if_pos ((isPrefixOf_iff_pfx _ _).mpr hr)]
  | cons x a' ih =>
    rw [List.cons_append]
    unfold take_until
    rw [if_neg]
    · rw [ih (fun t ht hn => hnot t (ht.trans (List.suffix_cons x a')) hn)]
    · intro hc
      exact hnot (x :: a') List.suffix_rfl (by simp)
        ((isPrefixOf_iff_pfx _ _).mp (by simpa using hc))

theorem take_until_eq_none {pat l : List Char} (h : NoOcc pat l) :
    take_until pat l = none := by
  induction l with
  | nil => rfl
  | cons c cs ih =>
    unfold take_until
    rw [if_neg, ih]
    · rw [noOcc_iff] at h ⊢
      exact fun t ht => h t (ht.trans (List.suffix_cons c cs))
    · intro hc
      exact (noOcc_iff pat (c :: cs)).mp h (c :: cs) List.suffix_rfl
        ((isPrefixOf_iff_pfx _ _).mp hc)

theorem take_until_sound {pat l rem pre : List Char}
    (h : take_until pat l = some (rem, pre)) : pat <+: rem ∧ rem <:+ l := by
  induction l generalizing pre with
  | nil => cases h
  | cons c cs ih =>
    unfold take_until at h
    split at h
    · injection h with h1
      injection h1 with h2 _
      rw [← h2]
      exact ⟨(isPrefixOf_iff_pfx _ _).mp (by assumption), List.suffix_rfl⟩
    · revert h
      split
      · rename_i rem' pre' heq
        intro h
        injection h with h1
        injection h1 with h2 h3
        obtain ⟨hpat, hsuf⟩ := ih (h2 ▸ heq)
        exact ⟨hpat, hsuf.trans (List.suffix_cons c cs)⟩
      · intro h; cases h

theorem trim_nil : trim [] = [] := rfl

theorem trim_sep (b : List Char) (h1 : headOk b = true) (h2 : headOk b.reverse = true) :
    trim (' ' :: b ++ [' ']) = b := by
  cases b with
  | nil => rfl
  | cons a b' =>
    have ha : a.isWhitespace = false := by simpa [headOk] using h1
    obtain ⟨g, r, hgr⟩ : ∃ g r, (a :: b').reverse = g :: r := by
      cases hrev : (a :: b').reverse with
      | nil => exact absurd (List.reverse_eq_nil_iff.mp hrev) (by simp)
      | cons g r => exact ⟨g, r, rfl⟩
    have hg : g.isWhitespace = false := by
      have h3 := h2
      rw [hgr] at h3
      simpa [headOk] using h3
    unfold trim
    rw [List.cons_append, List.dropWhile_cons_of_pos (by decide : ((' ' : Char).isWhitespace = true)),
      List.cons_append, List.dropWhile_cons_of_neg (by simp [ha]), ← List.cons_append,
      List.reverse_append, hgr]
    have e1 : ([' '] : List Char).reverse = [' '] := rfl
    rw [e1, List.singleton_append,
      List.dropWhile_cons_of_pos (by decide : ((' ' : Char).isWhitespace = true)),
      List.dropWhile_cons_of_neg (by simp [hg]), ← hgr, List.reverse_reverse]

theorem take_until_body (K b r : List Char) (hsp : ' ' ∉ K) (hK : K ≠ [])
    (hb : NoOcc K b) :
    take_until K (' ' :: b ++ ' ' :: (K ++ r)) = some (K ++ r, ' ' :: b ++ [' ']) := by
  have heq : (' ' : Char) :: b ++ ' ' :: (K ++ r) = (' ' :: b ++ [' ']) ++ (K ++ r) := by
    simp
  rw [heq]
  apply take_until_append_eq K _ _ hK ⟨r, rfl⟩
  intro t ht hne
  have h2 : (' ' :: b ++ [' ']) = (' ' :: b) ++ [' '] := by simp
  rw [h2] at ht
  rcases suffix_append_cases (' ' :: b) [' '] t ht with h1 | ⟨t₁, ht₁, hne₁, rfl⟩
  · have h3 : t = [' '] := by
      rcases List.suffix_cons_iff.mp h1 with h | h
      · exact h
      · exact absurd (List.suffix_nil.mp h) hne
    subst h3
    exact not_pfx_cons_space hsp hK (K ++ r)
  · rw [List.append_assoc, List.singleton_append]
    apply kw_not_pfx_sep K t₁ (K ++ r) hsp
    intro s hs
    rcases List.suffix_cons_iff.mp (hs.trans ht₁) with h | h
    · rw [h]
      exact not_pfx_cons_space hsp hK b
    · exact (noOcc_iff K b).mp hb s h

/-! ## Composite occurrence lemmas for whole input tails -/

theorem goodBody_noOcc {b : List Char} (h : GoodBody b) (K : List Char)
    (hK : K ∈ kwList) : NoOcc K b :=
  h.2.1 K hK

/-- No occurrence of `K` anywhere in a `keyword ++ " body rest"` segment. -/
theorem noOcc_seg {K : List Char} (kw' b rest : List Char) (hkw : NoSpanOcc K kw')
    (hsp : ' ' ∉ K) (hb : NoOcc K b) (hrest : NoOcc K rest) :
    NoOcc K (kw' ++ (' ' :: b ++ ' ' :: rest)) :=
  noOcc_kw_append hkw (noOcc_cons_space hsp (noOcc_body_sep hsp hb hrest))

/-! ## Evaluation lemmas for the clause parsers on canonical inputs -/

theorem parse_from_ok (f rest : List Char) (hf : NoOcc kwSELECT f) :
    parse_from (kwFROM ++ (' ' :: f ++ ' ' :: (kwSELECT ++ rest))) =
      some (kwSELECT ++ rest, ' ' :: f ++ [' ']) := by
  unfold parse_from
  simp only [tag_append]
  exact take_until_body kwSELECT f rest (by decide) (by decide) hf

theorem parse_select_ok (s rest : List Char) (hs : NoOcc kwWHERE s) :
    parse_select (kwSELECT ++ (' ' :: s ++ ' ' :: (kwWHERE ++ rest))) =
      some (kwWHERE ++ rest, ' ' :: s ++ [' ']) := by
  unfold parse_select
  simp only [tag_append]
  exact take_until_body kwWHERE s rest (by decide) (by decide) hs

theorem parse_where_facet (w rest : List Char) (hw : NoOcc kwFACET w) :
    parse_where (kwWHERE ++ (' ' :: w ++ ' ' :: (kwFACET ++ rest))) =
      some (kwFACET ++ rest, ' ' :: w ++ [' ']) := by
  unfold parse_where
  simp only [tag_append, take_until_body kwFACET w rest (by decide) (by decide) hw]

theorem parse_where_nofacet (w rest : List Char) (hw : NoOcc kwSINCE w)
    (hno : NoOcc kwFACET (' ' :: w ++ ' ' :: (kwSINCE ++ rest))) :
    parse_where (kwWHERE ++ (' ' :: w ++ ' ' :: (kwSINCE ++ rest))) =
      some (kwSINCE ++ rest, ' ' :: w ++ [' ']) := by
  unfold parse_where
  simp only [tag_append, take_until_eq_none hno]
  exact take_until_body kwSINCE w rest (by decide) (by decide) hw

theorem parse_facet_ok (fc rest : List Char) (hfc : NoOcc kwSINCE fc) :
    parse_facet (kwFACET ++ (' ' :: fc ++ ' ' :: (kwSINCE ++ rest))) =
      some (kwSINCE ++ rest, ' ' :: fc ++ [' ']) := by
  unfold parse_facet
  simp only [tag_append]
  exact take_until_body kwSINCE fc rest (by decide) (by decide) hfc

theorem parse_facet_skip (rest : List Char) : parse_facet (kwSINCE ++ rest) = none := by
  unfold parse_facet
  simp only [tag_none (not_pfx_append kwFACET kwSINCE rest (by decide))]

theorem parse_since_ok (si rest : List Char) (hsi : NoOcc kwUNTIL si) :
    parse_since (kwSINCE ++ (' ' :: si ++ ' ' :: (kwUNTIL ++ rest))) =
      some (kwUNTIL ++ rest, ' ' :: si ++ [' ']) := by
  unfold parse_since
  simp only [tag_append]
  exact take_until_body kwUNTIL si rest (by decide) (by decide) hsi

theorem parse_until_ok (u rest : List Char) (hu : NoOcc kwLIMIT u) :
    parse_until (kwUNTIL ++ (' ' :: u ++ ' ' :: (kwLIMIT ++ rest))) =
      some (kwLIMIT ++ rest, ' ' :: u ++ [' ']) := by
  unfold parse_until
  simp only [tag_append]
  exact take_until_body kwLIMIT u rest (by decide) (by decide) hu

theorem parse_limit_TS (l : List Char) (hl : NoOcc kwTIMESERIES l) :
    parse_limit (kwLIMIT ++ (' ' :: l ++ ' ' :: kwTIMESERIES)) =
      some (kwTIMESERIES, ' ' :: l ++ [' ']) := by
  unfold parse_limit
  have h := take_until_body kwTIMESERIES l [] (by decide) (by decide) hl
  rw [List.append_nil] at h
  simp only [tag_append, h]

theorem parse_limit_TB (l : List Char) (hl : NoOcc kwTIMESERIES l)
    (hl2 : NoOcc kwTABLE l) :
    parse_limit (kwLIMIT ++ (' ' :: l ++ ' ' :: kwTABLE)) =
      some (kwTABLE, ' ' :: l ++ [' ']) := by
  unfold parse_limit
  have hnone : take_until kwTIMESERIES (' ' :: l ++ ' ' :: kwTABLE) = none :=
    take_until_eq_none
      (noOcc_cons_space (by decide) (noOcc_body_sep (by decide) hl (by decide)))
  have h := take_until_body kwTABLE l [] (by decide) (by decide) hl2
  rw [List.append_nil] at h
  simp only [tag_append, hnone, h]

theorem parse_timeseries_TS : parse_timeseries kwTIMESERIES = some ([], kwTIMESERIES) := by
  unfold parse_timeseries
  have h := tag_append kwTIMESERIES []
  rw [List.append_nil] at h
  simp only [h]

theorem parse_timeseries_TB : parse_timeseries kwTABLE = some ([], kwTABLE) := by
  unfold parse_timeseries
  have h := tag_append kwTABLE []
  rw [List.append_nil] at h
  simp only [tag_none (by decide : ¬ kwTIMESERIES <+: kwTABLE), h]

/-! ## Full evaluation of `parse_nrql` on canonical inputs -/

theorem parse_nrql_canonical_nofacet (f s w si u l m : List Char)
    (hf : NoOcc kwSELECT f) (hs : NoOcc kwWHERE s)
    (hwF : NoOcc kwFACET w) (hwS : NoOcc kwSINCE w)
    (hsiF : NoOcc kwFACET si) (hsiU : NoOcc kwUNTIL si)
    (huF : NoOcc kwFACET u) (huL : NoOcc kwLIMIT u)
    (hlF : NoOcc kwFACET l) (hlTS : NoOcc kwTIMESERIES l) (hlTB : NoOcc kwTABLE l)
    (hm : m = kwTIMESERIES ∨ m = kwTABLE) :
    parse_nrql (kwFROM ++ (' ' :: f ++ ' ' :: (kwSELECT ++ (' ' :: s ++ ' ' ::
      (kwWHERE ++ (' ' :: w ++ ' ' :: (kwSINCE ++ (' ' :: si ++ ' ' ::
        (kwUNTIL ++ (' ' :: u ++ ' ' :: (kwLIMIT ++ (' ' :: l ++ ' ' :: m)))))))))))) =
    .ok [(kwFROM, trim (' ' :: f ++ [' '])), (kwSELECT, trim (' ' :: s ++ [' '])),
         (kwWHERE, trim (' ' :: w ++ [' '])), (kwFACET, trim []),
         (kwSINCE, trim (' ' :: si ++ [' '])), (kwUNTIL, trim (' ' :: u ++ [' '])),
         (kwLIMIT, trim (' ' :: l ++ [' '])), (kwMODE, trim m)] := by
  have hnoF : NoOcc kwFACET (' ' :: w ++ ' ' :: (kwSINCE ++ (' ' :: si ++ ' ' ::
      (kwUNTIL ++ (' ' :: u ++ ' ' :: (kwLIMIT ++ (' ' :: l ++ ' ' :: m))))))) := by
    have hmF : NoOcc kwFACET m := by
      rcases hm with rfl | rfl <;> decide
    apply noOcc_cons_space (by decide)
    apply noOcc_body_sep (by decide) hwF
    apply noOcc_seg _ _ _ (by decide) (by decide) hsiF
    apply noOcc_seg _ _ _ (by decide) (by decide) huF
    apply noOcc_seg _ _ _ (by decide) (by decide) hlF
    exact hmF
  rcases hm with rfl | rfl
  · unfold parse_nrql
    rw [parse_from_ok]
    simp only []
    rw [parse_select_ok]
    simp only []
    rw [parse_where_nofacet]
    simp only []
    rw [parse_facet_skip]
    simp only [Option.getD_none]
    rw [parse_since_ok]
    simp only []
    rw [parse_until_ok]
    simp only []
    rw [parse_limit_TS]
    simp only []
    rw [parse_timeseries_TS]
    · exact hlTS
    · exact huL
    · exact hsiU
    · exact hwS
    · exact hnoF
    · exact hs
    · exact hf
  · unfold parse_nrql
    rw [parse_from_ok]
    simp only []
    rw [parse_select_ok]
    simp only []
    rw [parse_where_nofacet]
    simp only []
    rw [parse_facet_skip]
    simp only [Option.getD_none]
    rw [parse_since_ok]
    simp only []
    rw [parse_until_ok]
    simp only []
    rw [parse_limit_TB]
    simp only []
    rw [parse_timeseries_TB]
    · exact hlTS
    · exact hlTB
    · exact huL
    · exact hsiU
    · exact hwS
    · exact hnoF
    · exact hs
    · exact hf

theorem parse_nrql_canonical_facet (f s w fc si u l m : List Char)
    (hf : NoOcc kwSELECT f) (hs : NoOcc kwWHERE s) (hwF : NoOcc kwFACET w)
    (hfcS : NoOcc kwSINCE fc)
    (hsiU : NoOcc kwUNTIL si) (huL : NoOcc kwLIMIT u)
    (hlTS : NoOcc kwTIMESERIES l) (hlTB : NoOcc kwTABLE l)
    (hm : m = kwTIMESERIES ∨ m = kwTABLE) :
    parse_nrql (kwFROM ++ (' ' :: f ++ ' ' :: (kwSELECT ++ (' ' :: s ++ ' ' ::
      (kwWHERE ++ (' ' :: w ++ ' ' :: (kwFACET ++ (' ' :: fc ++ ' ' ::
        (kwSINCE ++ (' ' :: si ++ ' ' :: (kwUNTIL ++ (' ' :: u ++ ' ' ::
          (kwLIMIT ++ (' ' :: l ++ ' ' :: m)))))))))))))) =
    .ok [(kwFROM, trim (' ' :: f ++ [' '])), (kwSELECT, trim (' ' :: s ++ [' '])),
         (kwWHERE, trim (' ' :: w ++ [' '])), (kwFACET, trim (' ' :: fc ++ [' '])),
         (kwSINCE, trim (' ' :: si ++ [' '])), (kwUNTIL, trim (' ' :: u ++ [' '])),
         (kwLIMIT, trim (' ' :: l ++ [' '])), (kwMODE, trim m)] := by
  rcases hm with rfl | rfl
  · unfold parse_nrql
    rw [parse_from_ok]
    simp only []
    rw [parse_select_ok]
    simp only []
    rw [parse_where_facet]
    simp only []
    rw [parse_facet_ok]
    simp only [Option.getD_some]
    rw [parse_since_ok]
    simp only []
    rw [parse_until_ok]
    simp only []
    rw [parse_limit_TS]
    simp only []
    rw [parse_timeseries_TS]
    · exact hlTS
    · exact huL
    · exact hsiU
    · exact hfcS
    · exact hwF
    · exact hs
    · exact hf
  · unfold parse_nrql
    rw [parse_from_ok]
    simp only []
    rw [parse_select_ok]
    simp only []
    rw [parse_where_facet]
    simp only []
    rw [parse_facet_ok]
    simp only [Option.getD_some]
    rw [parse_since_ok]
    simp only []
    rw [parse_until_ok]
    simp only []
    rw [parse_limit_TB]
    simp only []
    rw [parse_timeseries_TB]
    · exact hlTS
    · exact hlTB
    · exact huL
    · exact hsiU
    · exact hfcS
    · exact hwF
    · exact hs
    · exact hf

/-! ## Rendering chunks and the `to_nrql` fold -/

theorem chunk_FROM : ("FROM ".toList : List Char) = kwFROM ++ [' '] := rfl
theorem chunk_SELECT : ("SELECT ".toList : List Char) = kwSELECT ++ [' '] := rfl
theorem chunk_asValue : (" as value ".toList : List Char) = asValue ++ [' '] := rfl
theorem chunk_WHERE : ("WHERE ".toList : List Char) = kwWHERE ++ [' '] := rfl
theorem chunk_FACET : ("FACET ".toList : List Char) = kwFACET ++ [' '] := rfl
theorem chunk_SINCE : ("SINCE ".toList : List Char) = kwSINCE ++ [' '] := rfl
theorem chunk_UNTIL : ("UNTIL ".toList : List Char) = kwUNTIL ++ [' '] := rfl
theorem chunk_LIMIT : ("LIMIT ".toList : List Char) = kwLIMIT ++ [' '] := rfl
theorem chunk_SP : (" ".toList : List Char) = [' '] := rfl

theorem trim_kwTS : trim kwTIMESERIES = kwTIMESERIES := rfl
theorem trim_kwTB : trim kwTABLE = kwTABLE := rfl

theorem foldlM_applyKV (a b c d e g h i : List Char) :
    List.foldlM applyKV (default : NRQLQuery)
      [(kwFROM, a), (kwSELECT, b), (kwWHERE, c), (kwFACET, d), (kwSINCE, e),
       (kwUNTIL, g), (kwLIMIT, h), (kwMODE, i)] =
      some ⟨a, b, c, d, e, g, h, i⟩ := rfl

/-- C1: for every input satisfying the mandatory-clause grammar (FROM, SELECT,
WHERE, optional FACET, SINCE, UNTIL, LIMIT, mode keyword, in that order, with
keyword-free single-space-separated clause bodies), `parse_nrql`/`to_nrql`
succeeds and rendering the result with `NRQLQuery::to_string` reproduces the
input text exactly, up to the insertion of the literal result-binding suffix
" as value" after the projection clause. -/
theorem parse_render_roundtrip (f s w si u l : List Char) (fc : Option (List Char))
    (m : List Char) (hm : m = kwTIMESERIES ∨ m = kwTABLE)
    (hf : GoodBody f) (hs : GoodBody s) (hw : GoodBody w)
    (hfc : ∀ x, fc = some x → GoodBody x)
    (hsi : GoodBody si) (hu : GoodBody u) (hl : GoodBody l) :
    ∃ q : NRQLQuery,
      to_nrql (mkInput f s w fc si u l m) = TRes.ok q ∧
      q.to_string = mkInput f (s ++ asValue) w fc si u l m := by
  have htm : trim m = m := by rcases hm with rfl | rfl <;> rfl
  rcases fc with _ | fc
  · refine ⟨⟨f, s, w, [], si, u, l, m⟩, ?_, ?_⟩
    · have hIn : mkInput f s w none si u l m =
          kwFROM ++ (' ' :: f ++ ' ' :: (kwSELECT ++ (' ' :: s ++ ' ' ::
            (kwWHERE ++ (' ' :: w ++ ' ' :: (kwSINCE ++ (' ' :: si ++ ' ' ::
              (kwUNTIL ++ (' ' :: u ++ ' ' ::
                (kwLIMIT ++ (' ' :: l ++ ' ' :: m))))))))))) := by
        simp [mkInput, tailSELECT, tailWHERE, tailSINCE, tailUNTIL, tailLIMIT, facetSeg,
          List.append_assoc]
      rw [hIn]
      unfold to_nrql
      rw [parse_nrql_canonical_nofacet f s w si u l m
        (goodBody_noOcc hf kwSELECT (by decide)) (goodBody_noOcc hs kwWHERE (by decide))
        (goodBody_noOcc hw kwFACET (by decide)) (goodBody_noOcc hw kwSINCE (by decide))
        (goodBody_noOcc hsi kwFACET (by decide)) (goodBody_noOcc hsi kwUNTIL (by decide))
        (goodBody_noOcc hu kwFACET (by decide)) (goodBody_noOcc hu kwLIMIT (by decide))
        (goodBody_noOcc hl kwFACET (by decide)) (goodBody_noOcc hl kwTIMESERIES (by decide))
        (goodBody_noOcc hl kwTABLE (by decide)) hm]
      simp only []
      rw [trim_sep f hf.2.2.1 hf.2.2.2, trim_sep s hs.2.2.1 hs.2.2.2,
        trim_sep w hw.2.2.1 hw.2.2.2, trim_nil, trim_sep si hsi.2.2.1 hsi.2.2.2,
        trim_sep u hu.2.2.1 hu.2.2.2, trim_sep l hl.2.2.1 hl.2.2.2, htm,
        foldlM_applyKV]
    · show NRQLQuery.to_string _ = _
      simp [NRQLQuery.to_string, mkInput, tailSELECT, tailWHERE, tailSINCE, tailUNTIL,
        tailLIMIT, facetSeg, kwFROM, kwSELECT, kwWHERE, kwFACET, kwSINCE, kwUNTIL,
        kwLIMIT, asValue, List.append_assoc]
  · have hgfc : GoodBody fc := hfc fc rfl
    refine ⟨⟨f, s, w, fc, si, u, l, m⟩, ?_, ?_⟩
    · have hIn : mkInput f s w (some fc) si u l m =
          kwFROM ++ (' ' :: f ++ ' ' :: (kwSELECT ++ (' ' :: s ++ ' ' ::
            (kwWHERE ++ (' ' :: w ++ ' ' :: (kwFACET ++ (' ' :: fc ++ ' ' ::
              (kwSINCE ++ (' ' :: si ++ ' ' :: (kwUNTIL ++ (' ' :: u ++ ' ' ::
                (kwLIMIT ++ (' ' :: l ++ ' ' :: m))))))))))))) := by
        simp [mkInput, tailSELECT, tailWHERE, tailSINCE, tailUNTIL, tailLIMIT, facetSeg,
          List.append_assoc]
      rw [hIn]
      unfold to_nrql
      rw [parse_nrql_canonical_facet f s w fc si u l m
        (goodBody_noOcc hf kwSELECT (by decide)) (goodBody_noOcc hs kwWHERE (by decide))
        (goodBody_noOcc hw kwFACET (by decide)) (goodBody_noOcc hgfc kwSINCE (by decide))
        (goodBody_noOcc hsi kwUNTIL (by decide)) (goodBody_noOcc hu kwLIMIT (by decide))
        (goodBody_noOcc hl kwTIMESERIES (by decide)) (goodBody_noOcc hl kwTABLE (by decide))
        hm]
      simp only []
      rw [trim_sep f hf.2.2.1 hf.2.2.2, trim_sep s hs.2.2.1 hs.2.2.2,
        trim_sep w hw.2.2.1 hw.2.2.2, trim_sep fc hgfc.2.2.1 hgfc.2.2.2,
        trim_sep si hsi.2.2.1 hsi.2.2.2, trim_sep u hu.2.2.1 hu.2.2.2,
        trim_sep l hl.2.2.1 hl.2.2.2, htm, foldlM_applyKV]
    · show NRQLQuery.to_string _ = _
      simp [NRQLQuery.to_string, hgfc.1, mkInput, tailSELECT, tailWHERE, tailSINCE,
        tailUNTIL, tailLIMIT, facetSeg, kwFROM, kwSELECT, kwWHERE, kwFACET, kwSINCE,
        kwUNTIL, kwLIMIT, asValue, List.append_assoc]

/-! ## Soundness: a successful parse needs every mandatory keyword -/

theorem occ_of_pfx_suffix {K r input : List Char} (h1 : K <+: r) (h2 : r <:+ input) :
    ¬ NoOcc K input :=
  fun hno => (noOcc_iff _ _).mp hno r h2 h1

theorem parse_from_sound {input rem v : List Char} (h : parse_from input = some (rem, v)) :
    kwFROM <+: input ∧ kwSELECT <+: rem ∧ rem <:+ input := by
  unfold parse_from at h
  rcases htag : tag kwFROM input with _ | ⟨r0, x⟩ <;> rw [htag] at h
  · cases h
  · simp only [] at h
    obtain ⟨ht1, ht2, _⟩ := tag_sound htag
    obtain ⟨hp, hsf⟩ := take_until_sound h
    exact ⟨ht1, hp, hsf.trans ht2⟩

theorem parse_select_sound {input rem v : List Char}
    (h : parse_select input = some (rem, v)) :
    kwSELECT <+: input ∧ kwWHERE <+: rem ∧ rem <:+ input := by
  unfold parse_select at h
  rcases htag : tag kwSELECT input with _ | ⟨r0, x⟩ <;> rw [htag] at h
  · cases h
  · simp only [] at h
    obtain ⟨ht1, ht2, _⟩ := tag_sound htag
    obtain ⟨hp, hsf⟩ := take_until_sound h
    exact ⟨ht1, hp, hsf.trans ht2⟩

theorem parse_where_sound {input rem v : List Char}
    (h : parse_where input = some (rem, v)) :
    kwWHERE <+: input ∧ rem <:+ input := by
  unfold parse_where at h
  rcases htag : tag kwWHERE input with _ | ⟨r0, x⟩ <;> rw [htag] at h
  · cases h
  · simp only [] at h
    obtain ⟨ht1, ht2, _⟩ := tag_sound htag
    rcases hfa : take_until kwFACET r0 with _ | ⟨r1, y⟩ <;> rw [hfa] at h
    · obtain ⟨_, hsf⟩ := take_until_sound h
      exact ⟨ht1, hsf.trans ht2⟩
    · simp only [] at h
      injection h with h1
      injection h1 with h2 _
      obtain ⟨_, hsf⟩ := take_until_sound hfa
      exact ⟨ht1, (h2 ▸ hsf).trans ht2⟩

theorem parse_facet_sound {input rem v : List Char}
    (h : parse_facet input = some (rem, v)) : rem <:+ input := by
  unfold parse_facet at h
  rcases htag : tag kwFACET input with _ | ⟨r0, x⟩ <;> rw [htag] at h
  · cases h
  · simp only [] at h
    obtain ⟨_, ht2, _⟩ := tag_sound htag
    obtain ⟨_, hsf⟩ := take_until_sound h
    exact hsf.trans ht2

theorem parse_since_sound {input rem v : List Char}
    (h : parse_since input = some (rem, v)) :
    kwSINCE <+: input ∧ rem <:+ input := by
  unfold parse_since at h
  rcases htag : tag kwSINCE input with _ | ⟨r0, x⟩ <;> rw [htag] at h
  · cases h
  · simp only [] at h
    obtain ⟨ht1, ht2, _⟩ := tag_sound htag
    obtain ⟨_, hsf⟩ := take_until_sound h
    exact ⟨ht1, hsf.trans ht2⟩

theorem parse_until_sound {input rem v : List Char}
    (h : parse_until input = some (rem, v)) :
    kwUNTIL <+: input ∧ rem <:+ input := by
  unfold parse_until at h
  rcases htag : tag kwUNTIL input with _ | ⟨r0, x⟩ <;> rw [htag] at h
  · cases h
  · simp only [] at h
    obtain ⟨ht1, ht2, _⟩ := tag_sound htag
    obtain ⟨_, hsf⟩ := take_until_sound h
    exact ⟨ht1, hsf.trans ht2⟩

theorem parse_limit_sound {input rem v : List Char}
    (h : parse_limit input = some (rem, v)) :
    kwLIMIT <+: input ∧ rem <:+ input := by
  unfold parse_limit at h
  rcases htag : tag kwLIMIT input with _ | ⟨r0, x⟩ <;> rw [htag] at h
  · cases h
  · simp only [] at h
    obtain ⟨ht1, ht2, _⟩ := tag_sound htag
    rcases hts : take_until kwTIMESERIES r0 with _ | ⟨r1, y⟩ <;> rw [hts] at h
    · obtain ⟨_, hsf⟩ := take_until_sound h
      exact ⟨ht1, hsf.trans ht2⟩
    · simp only [] at h
      injection h with h1
      injection h1 with h2 _
      obtain ⟨_, hsf⟩ := take_until_sound hts
      exact ⟨ht1, (h2 ▸ hsf).trans ht2⟩

theorem parse_timeseries_sound {input rem v : List Char}
    (h : parse_timeseries input = some (rem, v)) :
    kwTIMESERIES <+: input ∨ kwTABLE <+: input := by
  unfold parse_timeseries at h
  rcases hts : tag kwTIMESERIES input with _ | ⟨r0, x⟩ <;> rw [hts] at h
  · exact Or.inr (tag_sound h).1
  · exact Or.inl (tag_sound hts).1

theorem parse_ok_keywords {input : List Char} {out : List (List Char × List Char)}
    (h : parse_nrql input = .ok out) :
    ¬ NoOcc kwFROM input ∧ ¬ NoOcc kwSELECT input ∧ ¬ NoOcc kwWHERE input ∧
    ¬ NoOcc kwSINCE input ∧ ¬ NoOcc kwUNTIL input ∧ ¬ NoOcc kwLIMIT input ∧
    (¬ NoOcc kwTIMESERIES input ∨ ¬ NoOcc kwTABLE input) := by
  unfold parse_nrql at h
  rcases h1 : parse_from input with _ | ⟨r1, v1⟩ <;> rw [h1] at h
  · cases h
  simp only [] at h
  rcases h2 : parse_select r1 with _ | ⟨r2, v2⟩ <;> rw [h2] at h
  · cases h
  simp only [] at h
  rcases h3 : parse_where r2 with _ | ⟨r3, v3⟩ <;> rw [h3] at h
  · cases h
  simp only [] at h
  obtain ⟨hA1, hA2, hA3⟩ := parse_from_sound h1
  obtain ⟨hB1, hB2, hB3⟩ := parse_select_sound h2
  obtain ⟨hC1, hC2⟩ := parse_where_sound h3
  have hr4 : ∃ r4 v4, (parse_facet r3).getD (r3, []) = (r4, v4) ∧ r4 <:+ r3 := by
    rcases h4 : parse_facet r3 with _ | ⟨r4, v4⟩
    · exact ⟨r3, [], by simp [h4], List.suffix_rfl⟩
    · exact ⟨r4, v4, by simp [h4], parse_facet_sound h4⟩
  obtain ⟨r4, v4, hgd, hr4s⟩ := hr4
  rw [hgd] at h
  simp only [] at h
  rcases h5 : parse_since r4 with _ | ⟨r5, v5⟩ <;> rw [h5] at h
  · cases h
  simp only [] at h
  rcases h6 : parse_until r5 with _ | ⟨r6, v6⟩ <;> rw [h6] at h
  · cases h
  simp only [] at h
  rcases h7 : parse_limit r6 with _ | ⟨r7, v7⟩ <;> rw [h7] at h
  · cases h
  simp only [] at h
  rcases h8 : parse_timeseries r7 with _ | ⟨r8, v8⟩ <;> rw [h8] at h
  · cases h
  obtain ⟨hD1, hD2⟩ := parse_since_sound h5
  obtain ⟨hE1, hE2⟩ := parse_until_sound h6
  obtain ⟨hF1, hF2⟩ := parse_limit_sound h7
  have hr2in : r2 <:+ input := hB3.trans hA3
  have hr3in : r3 <:+ input := hC2.trans hr2in
  have hr4in : r4 <:+ input := hr4s.trans hr3in
  have hr5in : r5 <:+ input := hD2.trans hr4in
  have hr6in : r6 <:+ input := hE2.trans hr5in
  have hr7in : r7 <:+ input := hF2.trans hr6in
  refine ⟨occ_of_pfx_suffix hA1 List.suffix_rfl,
    occ_of_pfx_suffix hB1 hA3,
    occ_of_pfx_suffix hC1 hr2in,
    occ_of_pfx_suffix hD1 hr4in,
    occ_of_pfx_suffix hE1 hr5in,
    occ_of_pfx_suffix hF1 hr6in, ?_⟩
  rcases parse_timeseries_sound h8 with hts | hts
  · exact Or.inl (occ_of_pfx_suffix hts hr7in)
  · exact Or.inr (occ_of_pfx_suffix hts hr7in)

/-! ## Failure of individual clause scans -/

theorem parse_from_none_tag {input : List Char} (h : ¬ kwFROM <+: input) :
    parse_from input = none := by
  unfold parse_from
  simp only [tag_none h]

theorem parse_from_none_scan (X : List Char) (h : NoOcc kwSELECT X) :
    parse_from (kwFROM ++ X) = none := by
  unfold parse_from
  simp only [tag_append, take_until_eq_none h]

theorem parse_select_none_scan (X : List Char) (h : NoOcc kwWHERE X) :
    parse_select (kwSELECT ++ X) = none := by
  unfold parse_select
  simp only [tag_append, take_until_eq_none h]

theorem parse_where_none_scan (X : List Char) (h1 : NoOcc kwFACET X)
    (h2 : NoOcc kwSINCE X) : parse_where (kwWHERE ++ X) = none := by
  unfold parse_where
  simp only [tag_append, take_until_eq_none h1, take_until_eq_none h2]

theorem parse_facet_none_scan (X : List Char) (h : NoOcc kwSINCE X) :
    parse_facet (kwFACET ++ X) = none := by
  unfold parse_facet
  simp only [tag_append, take_until_eq_none h]

theorem parse_since_none_tag {input : List Char} (h : ¬ kwSINCE <+: input) :
    parse_since input = none := by
  unfold parse_since
  simp only [tag_none h]

theorem parse_since_none_scan (X : List Char) (h : NoOcc kwUNTIL X) :
    parse_since (kwSINCE ++ X) = none := by
  unfold parse_since
  simp only [tag_append, take_until_eq_none h]

theorem parse_until_none_scan (X : List Char) (h : NoOcc kwLIMIT X) :
    parse_until (kwUNTIL ++ X) = none := by
  unfold parse_until
  simp only [tag_append, take_until_eq_none h]

theorem parse_limit_none_scan (X : List Char) (h1 : NoOcc kwTIMESERIES X)
    (h2 : NoOcc kwTABLE X) : parse_limit (kwLIMIT ++ X) = none := by
  unfold parse_limit
  simp only [tag_append, take_until_eq_none h1, take_until_eq_none h2]

/-! ## General failure and error naming for missing clauses -/

theorem parse_fail_general (input : List Char)
    (h : NoOcc kwFROM input ∨ NoOcc kwSELECT input ∨ NoOcc kwWHERE input ∨
         NoOcc kwSINCE input ∨ NoOcc kwUNTIL input ∨ NoOcc kwLIMIT input ∨
         (NoOcc kwTIMESERIES input ∧ NoOcc kwTABLE input)) :
    ∃ e, parse_nrql input = .error e := by
  rcases hp : parse_nrql input with e | out
  · exact ⟨e, rfl⟩
  · exfalso
    obtain ⟨n1, n2, n3, n4, n5, n6, n7⟩ := parse_ok_keywords hp
    rcases h with h | h | h | h | h | h | ⟨hA, hB⟩
    · exact n1 h
    · exact n2 h
    · exact n3 h
    · exact n4 h
    · exact n5 h
    · exact n6 h
    · rcases n7 with n | n
      · exact n hA
      · exact n hB

theorem parse_drop_named (k : Clause) (f s w si u l m : List Char)
    (hm : m = kwTIMESERIES ∨ m = kwTABLE)
    (hf : KwFree f) (hs : KwFree s) (hw : KwFree w) (hsi : KwFree si)
    (hu : KwFree u) (hl : KwFree l) :
    parse_nrql (mkInputDrop k f s w si u l m) = .error (expectedErr k) := by
  have hmOcc : ∀ K ∈ kwList, K ≠ kwTIMESERIES → K ≠ kwTABLE → NoOcc K m := by
    rcases hm with rfl | rfl <;> decide
  cases k with
  | FROM =>
    have hIn : mkInputDrop Clause.FROM f s w si u l m =
        kwSELECT ++ (' ' :: s ++ ' ' :: tailWHERE w none si u l m) := by
      simp [mkInputDrop, tailSELECT, List.append_assoc]
    rw [hIn]
    unfold parse_nrql
    rw [parse_from_none_tag (not_pfx_append kwFROM kwSELECT _ (by decide))]
    rfl
  | SELECT =>
    have hIn : mkInputDrop Clause.SELECT f s w si u l m =
        kwFROM ++ (' ' :: f ++ ' ' :: (kwWHERE ++ (' ' :: w ++ ' ' :: (kwSINCE ++
          (' ' :: si ++ ' ' :: (kwUNTIL ++ (' ' :: u ++ ' ' ::
            (kwLIMIT ++ (' ' :: l ++ ' ' :: m))))))))) := by
      simp [mkInputDrop, tailWHERE, tailSINCE, tailUNTIL, tailLIMIT, facetSeg,
        List.append_assoc]
    rw [hIn]
    have hX : NoOcc kwSELECT (' ' :: f ++ ' ' :: (kwWHERE ++ (' ' :: w ++ ' ' ::
        (kwSINCE ++ (' ' :: si ++ ' ' :: (kwUNTIL ++ (' ' :: u ++ ' ' ::
          (kwLIMIT ++ (' ' :: l ++ ' ' :: m))))))))) := by
      apply noOcc_cons_space (by decide)
      apply noOcc_body_sep (by decide) (hf kwSELECT (by decide))
      apply noOcc_seg _ _ _ (by decide) (by decide) (hw kwSELECT (by decide))
      apply noOcc_seg _ _ _ (by decide) (by decide) (hsi kwSELECT (by decide))
      apply noOcc_seg _ _ _ (by decide) (by decide) (hu kwSELECT (by decide))
      apply noOcc_seg _ _ _ (by decide) (by decide) (hl kwSELECT (by decide))
      exact hmOcc kwSELECT (by decide) (by decide) (by decide)
    unfold parse_nrql
    rw [parse_from_none_scan _ hX]
    rfl
  | WHERE =>
    have hIn : mkInputDrop Clause.WHERE f s w si u l m =
        kwFROM ++ (' ' :: f ++ ' ' :: (kwSELECT ++ (' ' :: s ++ ' ' :: (kwSINCE ++
          (' ' :: si ++ ' ' :: (kwUNTIL ++ (' ' :: u ++ ' ' ::
            (kwLIMIT ++ (' ' :: l ++ ' ' :: m))))))))) := by
      simp [mkInputDrop, tailSINCE, tailUNTIL, tailLIMIT, List.append_assoc]
    rw [hIn]
    have hX : NoOcc kwWHERE (' ' :: s ++ ' ' :: (kwSINCE ++ (' ' :: si ++ ' ' ::
        (kwUNTIL ++ (' ' :: u ++ ' ' :: (kwLIMIT ++ (' ' :: l ++ ' ' :: m))))))) := by
      apply noOcc_cons_space (by decide)
      apply noOcc_body_sep (by decide) (hs kwWHERE (by decide))
      apply noOcc_seg _ _ _ (by decide) (by decide) (hsi kwWHERE (by decide))
      apply noOcc_seg _ _ _ (by decide) (by decide) (hu kwWHERE (by decide))
      apply noOcc_seg _ _ _ (by decide) (by decide) (hl kwWHERE (by decide))
      exact hmOcc kwWHERE (by decide) (by decide) (by decide)
    unfold parse_nrql
    rw [parse_from_ok]
    simp only []
    rw [parse_select_none_scan _ hX]
    · rfl
    · exact hf kwSELECT (by decide)
  | SINCE =>
    have hIn : mkInputDrop Clause.SINCE f s w si u l m =
        kwFROM ++ (' ' :: f ++ ' ' :: (kwSELECT ++ (' ' :: s ++ ' ' :: (kwWHERE ++
          (' ' :: w ++ ' ' :: (kwUNTIL ++ (' ' :: u ++ ' ' ::
            (kwLIMIT ++ (' ' :: l ++ ' ' :: m))))))))) := by
      simp [mkInputDrop, tailUNTIL, tailLIMIT, List.append_assoc]
    rw [hIn]
    have hXF : NoOcc kwFACET (' ' :: w ++ ' ' :: (kwUNTIL ++ (' ' :: u ++ ' ' ::
        (kwLIMIT ++ (' ' :: l ++ ' ' :: m))))) := by
      apply noOcc_cons_space (by decide)
      apply noOcc_body_sep (by decide) (hw kwFACET (by decide))
      apply noOcc_seg _ _ _ (by decide) (by decide) (hu kwFACET (by decide))
      apply noOcc_seg _ _ _ (by decide) (by decide) (hl kwFACET (by decide))
      exact hmOcc kwFACET (by decide) (by decide) (by decide)
    have hXS : NoOcc kwSINCE (' ' :: w ++ ' ' :: (kwUNTIL ++ (' ' :: u ++ ' ' ::
        (kwLIMIT ++ (' ' :: l ++ ' ' :: m))))) := by
      apply noOcc_cons_space (by decide)
      apply noOcc_body_sep (by decide) (hw kwSINCE (by decide))
      apply noOcc_seg _ _ _ (by decide) (by decide) (hu kwSINCE (by decide))
      apply noOcc_seg _ _ _ (by decide) (by decide) (hl kwSINCE (by decide))
      exact hmOcc kwSINCE (by decide) (by decide) (by decide)
    unfold parse_nrql
    rw [parse_from_ok]
    simp only []
    rw [parse_select_ok]
    simp only []
    rw [parse_where_none_scan _ hXF hXS]
    · rfl
    · exact hs kwWHERE (by decide)
    · exact hf kwSELECT (by decide)
  | UNTIL =>
    have hIn : mkInputDrop Clause.UNTIL f s w si u l m =
        kwFROM ++ (' ' :: f ++ ' ' :: (kwSELECT ++ (' ' :: s ++ ' ' :: (kwWHERE ++
          (' ' :: w ++ ' ' :: (kwSINCE ++ (' ' :: si ++ ' ' ::
            (kwLIMIT ++ (' ' :: l ++ ' ' :: m))))))))) := by
      simp [mkInputDrop, tailLIMIT, List.append_assoc]
    rw [hIn]
    have hno : NoOcc kwFACET (' ' :: w ++ ' ' :: (kwSINCE ++ (' ' :: si ++ ' ' ::
        (kwLIMIT ++ (' ' :: l ++ ' ' :: m))))) := by
      apply noOcc_cons_space (by decide)
      apply noOcc_body_sep (by decide) (hw kwFACET (by decide))
      apply noOcc_seg _ _ _ (by decide) (by decide) (hsi kwFACET (by decide))
      apply noOcc_seg _ _ _ (by decide) (by decide) (hl kwFACET (by decide))
      exact hmOcc kwFACET (by decide) (by decide) (by decide)
    have hX : NoOcc kwUNTIL (' ' :: si ++ ' ' :: (kwLIMIT ++ (' ' :: l ++ ' ' :: m))) := by
      apply noOcc_cons_space (by decide)
      apply noOcc_body_sep (by decide) (hsi kwUNTIL (by decide))
      apply noOcc_seg _ _ _ (by decide) (by decide) (hl kwUNTIL (by decide))
      exact hmOcc kwUNTIL (by decide) (by decide) (by decide)
    unfold parse_nrql
    rw [parse_from_ok]
    simp only []
    rw [parse_select_ok]
    simp only []
    rw [parse_where_nofacet]
    simp only []
    rw [parse_facet_skip]
    simp only [Option.getD_none]
    rw [parse_since_none_scan _ hX]
    · rfl
    · exact hw kwSINCE (by decide)
    · exact hno
    · exact hs kwWHERE (by decide)
    · exact hf kwSELECT (by decide)
  | LIMIT =>
    have hIn : mkInputDrop Clause.LIMIT f s w si u l m =
        kwFROM ++ (' ' :: f ++ ' ' :: (kwSELECT ++ (' ' :: s ++ ' ' :: (kwWHERE ++
          (' ' :: w ++ ' ' :: (kwSINCE ++ (' ' :: si ++ ' ' ::
            (kwUNTIL ++ (' ' :: u ++ ' ' :: m))))))))) := by
      simp [mkInputDrop, List.append_assoc]
    rw [hIn]
    have hno : NoOcc kwFACET (' ' :: w ++ ' ' :: (kwSINCE ++ (' ' :: si ++ ' ' ::
        (kwUNTIL ++ (' ' :: u ++ ' ' :: m))))) := by
      apply noOcc_cons_space (by decide)
      apply noOcc_body_sep (by decide) (hw kwFACET (by decide))
      apply noOcc_seg _ _ _ (by decide) (by decide) (hsi kwFACET (by decide))
      apply noOcc_seg _ _ _ (by decide) (by decide) (hu kwFACET (by decide))
      exact hmOcc kwFACET (by decide) (by decide) (by decide)
    have hX : NoOcc kwLIMIT (' ' :: u ++ ' ' :: m) := by
      apply noOcc_cons_space (by decide)
      apply noOcc_body_sep (by decide) (hu kwLIMIT (by decide))
      exact hmOcc kwLIMIT (by decide) (by decide) (by decide)
    unfold parse_nrql
    rw [parse_from_ok]
    simp only []
    rw [parse_select_ok]
    simp only []
    rw [parse_where_nofacet]
    simp only []
    rw [parse_facet_skip]
    simp only [Option.getD_none]
    rw [parse_since_ok]
    simp only []
    rw [parse_until_none_scan _ hX]
    · rfl
    · exact hsi kwUNTIL (by decide)
    · exact hw kwSINCE (by decide)
    · exact hno
    · exact hs kwWHERE (by decide)
    · exact hf kwSELECT (by decide)
  | MODE =>
    have hIn : mkInputDrop Clause.MODE f s w si u l m =
        kwFROM ++ (' ' :: f ++ ' ' :: (kwSELECT ++ (' ' :: s ++ ' ' :: (kwWHERE ++
          (' ' :: w ++ ' ' :: (kwSINCE ++ (' ' :: si ++ ' ' ::
            (kwUNTIL ++ (' ' :: u ++ ' ' :: (kwLIMIT ++ ' ' :: l)))))))))) := by
      simp [mkInputDrop, List.append_assoc]
    rw [hIn]
    have hno : NoOcc kwFACET (' ' :: w ++ ' ' :: (kwSINCE ++ (' ' :: si ++ ' ' ::
        (kwUNTIL ++ (' ' :: u ++ ' ' :: (kwLIMIT ++ ' ' :: l)))))) := by
      apply noOcc_cons_space (by decide)
      apply noOcc_body_sep (by decide) (hw kwFACET (by decide))
      apply noOcc_seg _ _ _ (by decide) (by decide) (hsi kwFACET (by decide))
      apply noOcc_seg _ _ _ (by decide) (by decide) (hu kwFACET (by decide))
      apply noOcc_kw_append (by decide)
      exact noOcc_cons_space (by decide) (hl kwFACET (by decide))
    have hXT : NoOcc kwTIMESERIES (' ' :: l) :=
      noOcc_cons_space (by decide) (hl kwTIMESERIES (by decide))
    have hXB : NoOcc kwTABLE (' ' :: l) :=
      noOcc_cons_space (by decide) (hl kwTABLE (by decide))
    unfold parse_nrql
    rw [parse_from_ok]
    simp only []
    rw [parse_select_ok]
    simp only []
    rw [parse_where_nofacet]
    simp only []
    rw [parse_facet_skip]
    simp only [Option.getD_none]
    rw [parse_since_ok]
    simp only []
    rw [parse_until_ok]
    simp only []
    rw [parse_limit_none_scan _ hXT hXB]
    · rfl
    · exact hu kwLIMIT (by decide)
    · exact hsi kwUNTIL (by decide)
    · exact hw kwSINCE (by decide)
    · exact hno
    · exact hs kwWHERE (by decide)
    · exact hf kwSELECT (by decide)

theorem parse_drop_named_facet (k : Clause) (f s w fc si u l m : List Char)
    (hm : m = kwTIMESERIES ∨ m = kwTABLE)
    (hf : KwFree f) (hs : KwFree s) (hw : KwFree w) (hfc : KwFree fc)
    (hsi : KwFree si) (hu : KwFree u) (hl : KwFree l) :
    parse_nrql (mkInputDropFacet k f s w fc si u l m) =
      .error (expectedErrFacet k) := by
  have hmOcc : ∀ K ∈ kwList, K ≠ kwTIMESERIES → K ≠ kwTABLE → NoOcc K m := by
    rcases hm with rfl | rfl <;> decide
  cases k with
  | FROM =>
    have hIn : mkInputDropFacet Clause.FROM f s w fc si u l m =
        kwSELECT ++ (' ' :: s ++ ' ' :: tailWHERE w (some fc) si u l m) := by
      simp [mkInputDropFacet, tailSELECT, List.append_assoc]
    rw [hIn]
    unfold parse_nrql
    rw [parse_from_none_tag (not_pfx_append kwFROM kwSELECT _ (by decide))]
    rfl
  | SELECT =>
    have hIn : mkInputDropFacet Clause.SELECT f s w fc si u l m =
        kwFROM ++ (' ' :: f ++ ' ' :: (kwWHERE ++ (' ' :: w ++ ' ' :: (kwFACET ++
          (' ' :: fc ++ ' ' :: (kwSINCE ++ (' ' :: si ++ ' ' :: (kwUNTIL ++
            (' ' :: u ++ ' ' :: (kwLIMIT ++ (' ' :: l ++ ' ' :: m))))))))))) := by
      simp [mkInputDropFacet, tailWHERE, facetSeg, tailSINCE, tailUNTIL, tailLIMIT,
        List.append_assoc]
    rw [hIn]
    have hX : NoOcc kwSELECT (' ' :: f ++ ' ' :: (kwWHERE ++ (' ' :: w ++ ' ' ::
        (kwFACET ++ (' ' :: fc ++ ' ' :: (kwSINCE ++ (' ' :: si ++ ' ' :: (kwUNTIL ++
          (' ' :: u ++ ' ' :: (kwLIMIT ++ (' ' :: l ++ ' ' :: m))))))))))) := by
      apply noOcc_cons_space (by decide)
      apply noOcc_body_sep (by decide) (hf kwSELECT (by decide))
      apply noOcc_seg _ _ _ (by decide) (by decide) (hw kwSELECT (by decide))
      apply noOcc_seg _ _ _ (by decide) (by decide) (hfc kwSELECT (by decide))
      apply noOcc_seg _ _ _ (by decide) (by decide) (hsi kwSELECT (by decide))
      apply noOcc_seg _ _ _ (by decide) (by decide) (hu kwSELECT (by decide))
      apply noOcc_seg _ _ _ (by decide) (by decide) (hl kwSELECT (by decide))
      exact hmOcc kwSELECT (by decide) (by decide) (by decide)
    unfold parse_nrql
    rw [parse_from_none_scan _ hX]
    rfl
  | WHERE =>
    have hIn : mkInputDropFacet Clause.WHERE f s w fc si u l m =
        kwFROM ++ (' ' :: f ++ ' ' :: (kwSELECT ++ (' ' :: s ++ ' ' :: (kwFACET ++
          (' ' :: fc ++ ' ' :: (kwSINCE ++ (' ' :: si ++ ' ' :: (kwUNTIL ++
            (' ' :: u ++ ' ' :: (kwLIMIT ++ (' ' :: l ++ ' ' :: m))))))))))) := by
      simp [mkInputDropFacet, tailSINCE, tailUNTIL, tailLIMIT, List.append_assoc]
    rw [hIn]
    have hX : NoOcc kwWHERE (' ' :: s ++ ' ' :: (kwFACET ++ (' ' :: fc ++ ' ' ::
        (kwSINCE ++ (' ' :: si ++ ' ' :: (kwUNTIL ++ (' ' :: u ++ ' ' ::
          (kwLIMIT ++ (' ' :: l ++ ' ' :: m))))))))) := by
      apply noOcc_cons_space (by decide)
      apply noOcc_body_sep (by decide) (hs kwWHERE (by decide))
      apply noOcc_seg _ _ _ (by decide) (by decide) (hfc kwWHERE (by decide))
      apply noOcc_seg _ _ _ (by decide) (by decide) (hsi kwWHERE (by decide))
      apply noOcc_seg _ _ _ (by decide) (by decide) (hu kwWHERE (by decide))
      apply noOcc_seg _ _ _ (by decide) (by decide) (hl kwWHERE (by decide))
      exact hmOcc kwWHERE (by decide) (by decide) (by decide)
    unfold parse_nrql
    rw [parse_from_ok]
    simp only []
    rw [parse_select_none_scan _ hX]
    · rfl
    · exact hf kwSELECT (by decide)
  | SINCE =>
    have hIn : mkInputDropFacet Clause.SINCE f s w fc si u l m =
        kwFROM ++ (' ' :: f ++ ' ' :: (kwSELECT ++ (' ' :: s ++ ' ' :: (kwWHERE ++
          (' ' :: w ++ ' ' :: (kwFACET ++ (' ' :: fc ++ ' ' :: (kwUNTIL ++
            (' ' :: u ++ ' ' :: (kwLIMIT ++ (' ' :: l ++ ' ' :: m))))))))))) := by
      simp [mkInputDropFacet, tailUNTIL, tailLIMIT, List.append_assoc]
    rw [hIn]
    have hXfc : NoOcc kwSINCE (' ' :: fc ++ ' ' :: (kwUNTIL ++ (' ' :: u ++ ' ' ::
        (kwLIMIT ++ (' ' :: l ++ ' ' :: m))))) := by
      apply noOcc_cons_space (by decide)
      apply noOcc_body_sep (by decide) (hfc kwSINCE (by decide))
      apply noOcc_seg _ _ _ (by decide) (by decide) (hu kwSINCE (by decide))
      apply noOcc_seg _ _ _ (by decide) (by decide) (hl kwSINCE (by decide))
      exact hmOcc kwSINCE (by decide) (by decide) (by decide)
    unfold parse_nrql
    rw [parse_from_ok]
    simp only []
    rw [parse_select_ok]
    simp only []
    rw [parse_where_facet]
    simp only []
    rw [parse_facet_none_scan _ hXfc]
    simp only [Option.getD_none]
    rw [parse_since_none_tag (not_pfx_append kwSINCE kwFACET _ (by decide))]
    · rfl
    · exact hw kwFACET (by decide)
    · exact hs kwWHERE (by decide)
    · exact hf kwSELECT (by decide)
  | UNTIL =>
    have hIn : mkInputDropFacet Clause.UNTIL f s w fc si u l m =
        kwFROM ++ (' ' :: f ++ ' ' :: (kwSELECT ++ (' ' :: s ++ ' ' :: (kwWHERE ++
          (' ' :: w ++ ' ' :: (kwFACET ++ (' ' :: fc ++ ' ' :: (kwSINCE ++
            (' ' :: si ++ ' ' :: (kwLIMIT ++ (' ' :: l ++ ' ' :: m))))))))))) := by
      simp [mkInputDropFacet, tailLIMIT, List.append_assoc]
    rw [hIn]
    have hX : NoOcc kwUNTIL (' ' :: si ++ ' ' :: (kwLIMIT ++ (' ' :: l ++ ' ' :: m))) := by
      apply noOcc_cons_space (by decide)
      apply noOcc_body_sep (by decide) (hsi kwUNTIL (by decide))
      apply noOcc_seg _ _ _ (by decide) (by decide) (hl kwUNTIL (by decide))
      exact hmOcc kwUNTIL (by decide) (by decide) (by decide)
    unfold parse_nrql
    rw [parse_from_ok]
    simp only []
    rw [parse_select_ok]
    simp only []
    rw [parse_where_facet]
    simp only []
    rw [parse_facet_ok]
    simp only [Option.getD_some]
    rw [parse_since_none_scan _ hX]
    · rfl
    · exact hfc kwSINCE (by decide)
    · exact hw kwFACET (by decide)
    · exact hs kwWHERE (by decide)
    · exact hf kwSELECT (by decide)
  | LIMIT =>
    have hIn : mkInputDropFacet Clause.LIMIT f s w fc si u l m =
        kwFROM ++ (' ' :: f ++ ' ' :: (kwSELECT ++ (' ' :: s ++ ' ' :: (kwWHERE ++
          (' ' :: w ++ ' ' :: (kwFACET ++ (' ' :: fc ++ ' ' :: (kwSINCE ++
            (' ' :: si ++ ' ' :: (kwUNTIL ++ (' ' :: u ++ ' ' :: m))))))))))) := by
      simp [mkInputDropFacet, List.append_assoc]
    rw [hIn]
    have hX : NoOcc kwLIMIT (' ' :: u ++ ' ' :: m) := by
      apply noOcc_cons_space (by decide)
      apply noOcc_body_sep (by decide) (hu kwLIMIT (by decide))
      exact hmOcc kwLIMIT (by decide) (by decide) (by decide)
    unfold parse_nrql
    rw [parse_from_ok]
    simp only []
    rw [parse_select_ok]
    simp only []
    rw [parse_where_facet]
    simp only []
    rw [parse_facet_ok]
    simp only [Option.getD_some]
    rw [parse_since_ok]
    simp only []
    rw [parse_until_none_scan _ hX]
    · rfl
    · exact hsi kwUNTIL (by decide)
    · exact hfc kwSINCE (by decide)
    · exact hw kwFACET (by decide)
    · exact hs kwWHERE (by decide)
    · exact hf kwSELECT (by decide)
  | MODE =>
    have hIn : mkInputDropFacet Clause.MODE f s w fc si u l m =
        kwFROM ++ (' ' :: f ++ ' ' :: (kwSELECT ++ (' ' :: s ++ ' ' :: (kwWHERE ++
          (' ' :: w ++ ' ' :: (kwFACET ++ (' ' :: fc ++ ' ' :: (kwSINCE ++
            (' ' :: si ++ ' ' :: (kwUNTIL ++ (' ' :: u ++ ' ' ::
              (kwLIMIT ++ ' ' :: l)))))))))))) := by
      simp [mkInputDropFacet, List.append_assoc]
    rw [hIn]
    have hXT : NoOcc kwTIMESERIES (' ' :: l) :=
      noOcc_cons_space (by decide) (hl kwTIMESERIES (by decide))
    have hXB : NoOcc kwTABLE (' ' :: l) :=
      noOcc_cons_space (by decide) (hl kwTABLE (by decide))
    unfold parse_nrql
    rw [parse_from_ok]
    simp only []
    rw [parse_select_ok]
    simp only []
    rw [parse_where_facet]
    simp only []
    rw [parse_facet_ok]
    simp only [Option.getD_some]
    rw [parse_since_ok]
    simp only []
    rw [parse_until_ok]
    simp only []
    rw [parse_limit_none_scan _ hXT hXB]
    · rfl
    · exact hu kwLIMIT (by decide)
    · exact hsi kwUNTIL (by decide)
    · exact hfc kwSINCE (by decide)
    · exact hw kwFACET (by decide)
    · exact hs kwWHERE (by decide)
    · exact hf kwSELECT (by decide)

/-- C2 (corrected): for every input from which a mandatory keyword is absent
altogether, `parse_nrql` returns an error; but the error does not always name
the first missing clause in scan order: each clause scan also searches for the
following keyword as its terminator.  On clause-ordered inputs without a
FACET clause, when the first missing mandatory clause is not FROM the
reported clause is the one immediately preceding it in scan order
(`expectedErr`; a missing FROM is reported as FROM).  When a FACET clause is
present the same holds except that a missing SINCE is reported as SINCE
itself (`expectedErrFacet`): the failed SINCE scan inside `parse_facet` is
absorbed by the `unwrap_or` fallback and `parse_since`'s own tag then fails. -/
theorem parse_missing_clause_error :
    (∀ input : List Char,
      (NoOcc kwFROM input ∨ NoOcc kwSELECT input ∨ NoOcc kwWHERE input ∨
       NoOcc kwSINCE input ∨ NoOcc kwUNTIL input ∨ NoOcc kwLIMIT input ∨
       (NoOcc kwTIMESERIES input ∧ NoOcc kwTABLE input)) →
      ∃ e, parse_nrql input = .error e) ∧
    (∀ (k : Clause) (f s w si u l m : List Char),
      m = kwTIMESERIES ∨ m = kwTABLE →
      KwFree f → KwFree s → KwFree w → KwFree si → KwFree u → KwFree l →
      parse_nrql (mkInputDrop k f s w si u l m) = .error (expectedErr k)) ∧
    (∀ (k : Clause) (f s w fc si u l m : List Char),
      m = kwTIMESERIES ∨ m = kwTABLE →
      KwFree f → KwFree s → KwFree w → KwFree fc → KwFree si → KwFree u → KwFree l →
      parse_nrql (mkInputDropFacet k f s w fc si u l m) =
        .error (expectedErrFacet k)) :=
  ⟨parse_fail_general, parse_drop_named, parse_drop_named_facet⟩

/-- Witness for C2 at concrete inputs: one with the SELECT clause removed
(reported as FROM) and one FACET-carrying input with the SINCE clause removed
(reported as SINCE). -/
theorem parse_missing_clause_error_witness :
    parse_nrql (mkInputDrop Clause.SELECT "Transaction".toList "count(*)".toList
      "appId = 5".toList "1 hour ago".toList "now".toList "50".toList kwTIMESERIES) =
      .error (expectedErr Clause.SELECT) ∧
    parse_nrql (mkInputDropFacet Clause.SINCE "Transaction".toList "count(*)".toList
      "appId = 5".toList "host".toList "1 hour ago".toList "now".toList "50".toList
      kwTIMESERIES) = .error (expectedErrFacet Clause.SINCE) :=
  ⟨parse_missing_clause_error.2.1 Clause.SELECT _ _ _ _ _ _ _ (Or.inl rfl) (by decide)
    (by decide) (by decide) (by decide) (by decide) (by decide),
   parse_missing_clause_error.2.2 Clause.SINCE _ _ _ _ _ _ _ _ (Or.inl rfl) (by decide)
    (by decide) (by decide) (by decide) (by decide) (by decide) (by decide)⟩

/-- C2 counterexample: on the input missing exactly the SELECT clause, the
first missing mandatory clause in scan order is SELECT, yet `parse_nrql`
reports FROM (the FROM step scans for SELECT as its terminator and fails). -/
theorem missing_select_error_names_from :
    parse_nrql
        "FROM Transaction WHERE appId = 5 SINCE 1 hour ago UNTIL now LIMIT 50 TIMESERIES".toList
      = .error Clause.FROM ∧ Clause.FROM ≠ Clause.SELECT := by
  exact ⟨rfl, by decide⟩

/-- C10: whenever `parse_nrql` succeeds, the returned map's keys are exactly
FROM, SELECT, WHERE, FACET, SINCE, UNTIL, LIMIT, MODE, so the `_ => panic!()`
arm of `to_nrql`'s key-matching loop is unreachable and `to_nrql` returns a
query without panicking. -/
theorem parse_keys_to_nrql_total (input : List Char)
    (out : List (List Char × List Char)) (h : parse_nrql input = .ok out) :
    out.map Prod.fst =
      [kwFROM, kwSELECT, kwWHERE, kwFACET, kwSINCE, kwUNTIL, kwLIMIT, kwMODE] ∧
    ∃ q : NRQLQuery, to_nrql input = TRes.ok q := by
  have h0 := h
  unfold parse_nrql at h
  rcases h1 : parse_from input with _ | ⟨r1, v1⟩ <;> rw [h1] at h
  · cases h
  simp only [] at h
  rcases h2 : parse_select r1 with _ | ⟨r2, v2⟩ <;> rw [h2] at h
  · cases h
  simp only [] at h
  rcases h3 : parse_where r2 with _ | ⟨r3, v3⟩ <;> rw [h3] at h
  · cases h
  simp only [] at h
  rcases h4 : (parse_facet r3).getD (r3, []) with ⟨r4, v4⟩
  rw [h4] at h
  simp only [] at h
  rcases h5 : parse_since r4 with _ | ⟨r5, v5⟩ <;> rw [h5] at h
  · cases h
  simp only [] at h
  rcases h6 : parse_until r5 with _ | ⟨r6, v6⟩ <;> rw [h6] at h
  · cases h
  simp only [] at h
  rcases h7 : parse_limit r6 with _ | ⟨r7, v7⟩ <;> rw [h7] at h
  · cases h
  simp only [] at h
  rcases h8 : parse_timeseries r7 with _ | ⟨r8, v8⟩ <;> rw [h8] at h
  · cases h
  simp only [] at h
  injection h with hout
  constructor
  · rw [← hout]
    rfl
  · refine ⟨⟨trim v1, trim v2, trim v3, trim v4, trim v5, trim v6, trim v7, trim v8⟩, ?_⟩
    unfold to_nrql
    rw [h0, ← hout]
    simp only [foldlM_applyKV]

/-- Witness for C10 at a concrete input on which the parse succeeds. -/
theorem parse_keys_to_nrql_total_witness :
    ([(kwFROM, "Transaction".toList), (kwSELECT, "count(*)".toList),
      (kwWHERE, "appName = 1".toList), (kwFACET, ([] : List Char)),
      (kwSINCE, "10 minutes ago".toList), (kwUNTIL, "now".toList),
      (kwLIMIT, "100".toList), (kwMODE, kwTIMESERIES)]).map Prod.fst =
      [kwFROM, kwSELECT, kwWHERE, kwFACET, kwSINCE, kwUNTIL, kwLIMIT, kwMODE] ∧
    ∃ q : NRQLQuery,
      to_nrql
        "FROM Transaction SELECT count(*) WHERE appName = 1 SINCE 10 minutes ago UNTIL now LIMIT 100 TIMESERIES".toList
        = TRes.ok q :=
  parse_keys_to_nrql_total
    "FROM Transaction SELECT count(*) WHERE appName = 1 SINCE 10 minutes ago UNTIL now LIMIT 100 TIMESERIES".toList
    [(kwFROM, "Transaction".toList), (kwSELECT, "count(*)".toList),
     (kwWHERE, "appName = 1".toList), (kwFACET, ([] : List Char)),
     (kwSINCE, "10 minutes ago".toList), (kwUNTIL, "now".toList),
     (kwLIMIT, "100".toList), (kwMODE, kwTIMESERIES)] rfl

/-- Witness for C1 at a concrete grammar-conforming input. -/
theorem parse_render_roundtrip_witness :
    ∃ q : NRQLQuery,
      to_nrql (mkInput "Transaction".toList "count(*)".toList "appName = 1".toList none
        "10 minutes ago".toList "now".toList "100".toList kwTIMESERIES) = TRes.ok q ∧
      q.to_string = mkInput "Transaction".toList ("count(*)".toList ++ asValue)
        "appName = 1".toList none "10 minutes ago".toList "now".toList "100".toList
        kwTIMESERIES :=
  parse_render_roundtrip "Transaction".toList "count(*)".toList "appName = 1".toList
    "10 minutes ago".toList "now".toList "100".toList none kwTIMESERIES (Or.inl rfl)
    (by decide) (by decide) (by decide) (fun x hx => nomatch hx) (by decide) (by decide)
    (by decide)

/-! ## Association list lemmas -/

theorem assocUpdate_cons {β : Type _} (kv : List Char × β) (rest : List (List Char × β))
    (k : List Char) (g : β → β) :
    assocUpdate (kv :: rest) k g =
      (if kv.1 = k then (kv.1, g kv.2) else kv) :: assocUpdate rest k g := rfl

theorem alookup_append_self {β : Type _} (m : List (List Char × β)) (k : List Char)
    (v : β) (h : alookup m k = none) : alookup (m ++ [(k, v)]) k = some v := by
  induction m with
  | nil => simp [alookup]
  | cons kv rest ih =>
    simp only [alookup, List.cons_append] at h ⊢
    split at h
    · cases h
    · rename_i hne
      rw [if_neg hne]
      exact ih h

theorem alookup_assocUpdate_self {β : Type _} (m : List (List Char × β))
    (k : List Char) (g : β → β) :
    alookup (assocUpdate m k g) k = (alookup m k).map g := by
  induction m with
  | nil => rfl
  | cons kv rest ih =>
    rw [assocUpdate_cons]
    by_cases hk : kv.1 = k
    · rw [if_pos hk]
      simp [alookup, hk]
    · rw [if_neg hk]
      simp [alookup, hk, ih]

theorem alookup_append_single {β : Type _} (m : List (List Char × β))
    (k key : List Char) (v : β) :
    alookup (m ++ [(k, v)]) key =
      match alookup m key with
      | some x => some x
      | none => if k = key then some v else none := by
  induction m with
  | nil => rfl
  | cons kv rest ih =>
    rw [List.cons_append]
    by_cases hx : kv.1 = key
    · simp [alookup, hx]
    · simp only [alookup, if_neg hx]
      exact ih

theorem alookup_assocUpdate {β : Type _} (m : List (List Char × β))
    (k key : List Char) (g : β → β) :
    alookup (assocUpdate m k g) key =
      if k = key then (alookup m key).map g else alookup m key := by
  induction m with
  | nil => simp [assocUpdate, alookup]
  | cons kv rest ih =>
    rw [assocUpdate_cons]
    by_cases hk : kv.1 = k <;> by_cases hkey : kv.1 = key
    · have hkk : k = key := hk ▸ hkey
      rw [if_pos hk]
      simp [alookup, hkey, hkk]
    · have hkk : ¬ k = key := fun hc => hkey (hk.trans hc)
      rw [if_pos hk]
      simp [alookup, hkey, hkk, ih]
    · have hkk : ¬ k = key := fun hc => hk (hkey.trans hc.symm)
      rw [if_neg hk]
      simp [alookup, hkey, hkk]
    · rw [if_neg hk]
      simp [alookup, hkey, ih]

/-! ## C3: log filtering -/

/-- C3 (corrected): `add_filter` retains exactly the entries in which at least
one line contains the new filter (not "at least one of all active filters"),
so the log set only ever shrinks — a dropped entry is never restored — and
after two filters an entry survives only if it matched each filter when that
filter was added. -/
theorem add_filter_characterization (st : Logs) (fl g : List Char)
    (kv : List Char × List (List Char)) :
    List.Sublist (add_filter st fl).logs st.logs ∧
    (kv ∈ (add_filter st fl).logs ↔
      kv ∈ st.logs ∧ kv.2.any (fun line => str_contains line fl) = true) ∧
    (kv ∈ (add_filter (add_filter st g) fl).logs ↔
      kv ∈ st.logs ∧ kv.2.any (fun line => str_contains line g) = true ∧
        kv.2.any (fun line => str_contains line fl) = true) := by
  refine ⟨List.filter_sublist _, ?_, ?_⟩
  · simp [add_filter, List.mem_filter]
  · simp [add_filter, List.mem_filter, and_assoc, and_comm, and_left_comm]

/-- C3 counterexample: the entry `t1` (one line containing "ERROR" only)
survives `add_filter "ERROR"` but is dropped by the subsequent
`add_filter "timeout"`, although it matches one of the active filters — the
claim would keep it. -/
theorem add_filter_drops_earlier_match :
    (add_filter
        { logs := [("t1".toList, ["ERROR foo".toList])], log_item_list_state := none,
          selected := [], filters := [] } "ERROR".toList).logs =
      [("t1".toList, ["ERROR foo".toList])] ∧
    (add_filter
        (add_filter
          { logs := [("t1".toList, ["ERROR foo".toList])], log_item_list_state := none,
            selected := [], filters := [] } "ERROR".toList) "timeout".toList).logs =
      [] := by
  exact ⟨rfl, rfl⟩

/-! ## C4: delete/navigate with no selection -/

/-- C4 (the spec's requirement, violated by the code): with no entry selected,
`delete_query` unwraps `None` and panics (modelled by `none`) instead of being
a no-op; `next` with no selection is not a no-op either — on the Logs tab with
a non-empty log buffer it selects index 0. -/
theorem delete_query_none_panics :
    (∀ app : AppNav, app.list_state = none → delete_query app = none) ∧
    (∀ app : AppNav, app.focus.tab = Tab.Logs → app.focus.panel = Focus.Default →
      app.log_list_state = none → app.logs.logs.isEmpty = false →
      next app =
        some { app with log_list_state := some 0, logs := logs_select app.logs 0 }) := by
  constructor
  · intro app h
    unfold delete_query
    rw [h]
  · intro app h1 h2 h3 h4
    unfold next
    rw [h1]
    simp only []
    rw [h2]
    simp only []
    rw [h4]
    simp only [Bool.false_eq_true, if_false]
    rw [h3]

/-- Witness for C4: a concrete state with nothing selected. -/
theorem delete_query_none_panics_witness :
    delete_query
      ⟨UIFocus.default, none, none,
        [("q".toList, ⟨none, [], Bounds.default, [], false⟩)], [],
        ⟨[("t".toList, ["x".toList])], none, [], []⟩⟩ = none :=
  delete_query_none_panics.1
    ⟨UIFocus.default, none, none,
      [("q".toList, ⟨none, [], Bounds.default, [], false⟩)], [],
      ⟨[("t".toList, ["x".toList])], none, [], []⟩⟩ rfl

/-! ## C5: rename placeholder and payload upsert -/

/-- C5: renaming a key with no dataset entry creates a placeholder with
`has_data = false`, the alias, empty series and default bounds; a payload
drained for that key then updates series/bounds and flips `has_data` to true
while leaving the stored alias unchanged; in general the upsert of an
existing entry never clobbers `query_alias`. -/
theorem rename_then_payload_preserves_alias (ds : List (List Char × Dataset))
    (q a : List Char) (p : TimeseriesPayload) (h : alookup ds q = none)
    (hp : p.query = q) :
    alookup (rename_query ds q a) q = some ⟨some a, [], Bounds.default, [], false⟩ ∧
    alookup (upsert_timeseries (rename_query ds q a) p) q =
      some ⟨some a, p.data, p.bounds, [], true⟩ ∧
    (∀ (ds' : List (List Char × Dataset)) (d : Dataset), alookup ds' q = some d →
      alookup (upsert_timeseries ds' p) q =
        some { d with facets := p.data, bounds := p.bounds, has_data := true }) := by
  have h1 : alookup (rename_query ds q a) q =
      some ⟨some a, [], Bounds.default, [], false⟩ := by
    unfold rename_query
    rw [h]
    simp only [Option.isNone_none, if_true]
    exact alookup_append_self ds q _ h
  have h3 : ∀ (ds' : List (List Char × Dataset)) (d : Dataset),
      alookup ds' q = some d →
      alookup (upsert_timeseries ds' p) q =
        some { d with facets := p.data, bounds := p.bounds, has_data := true } := by
    intro ds' d hd
    unfold upsert_timeseries
    rw [hp, hd]
    simp only [Option.isNone_some, Bool.false_eq_true, if_false]
    rw [alookup_assocUpdate_self, hd]
    rfl
  exact ⟨h1, h3 _ _ h1, h3⟩

/-- Witness for C5 at a concrete store and payload. -/
theorem rename_then_payload_preserves_alias_witness :
    alookup (rename_query [] "Q".toList "my alias".toList) "Q".toList =
      some ⟨some "my alias".toList, [], Bounds.default, [], false⟩ ∧
    alookup
      (upsert_timeseries (rename_query [] "Q".toList "my alias".toList)
        ⟨"Q".toList, [("east".toList, [(F64.fin 1, F64.fin 2)])], Bounds.default,
          "sel".toList, ["east".toList]⟩) "Q".toList =
      some ⟨some "my alias".toList, [("east".toList, [(F64.fin 1, F64.fin 2)])],
        Bounds.default, [], true⟩ ∧
    (∀ (ds' : List (List Char × Dataset)) (d : Dataset),
      alookup ds' "Q".toList = some d →
      alookup
        (upsert_timeseries ds'
          ⟨"Q".toList, [("east".toList, [(F64.fin 1, F64.fin 2)])], Bounds.default,
            "sel".toList, ["east".toList]⟩) "Q".toList =
        some { d with
          facets := [("east".toList, [(F64.fin 1, F64.fin 2)])]
          bounds := Bounds.default
          has_data := true }) :=
  rename_then_payload_preserves_alias [] "Q".toList "my alias".toList
    ⟨"Q".toList, [("east".toList, [(F64.fin 1, F64.fin 2)])], Bounds.default,
      "sel".toList, ["east".toList]⟩ rfl rfl

/-! ## C6 and C8: the acquisition reduction -/

theorem boundsFold_proj (data : List TimeseriesResult)
    (acc : (F64 × F64) × (F64 × F64)) :
    data.foldl boundsStep acc =
      (((data.map (·.end_time_seconds)).foldl F64.min acc.1.1,
        (data.map (·.value)).foldl F64.min acc.1.2),
       ((data.map (·.end_time_seconds)).foldl F64.max acc.2.1,
        (data.map (·.value)).foldl F64.max acc.2.2)) := by
  induction data generalizing acc with
  | nil => rfl
  | cons x xs ih =>
    simp only [List.foldl_cons, List.map_cons]
    exact ih _

/-- C6 (corrected): the bounds fold visits every row regardless of group,
folding each axis independently; the min pair is seeded at
`(f64::MAX, f64::MAX)` — the largest finite double, not `(+infinity,
+infinity)` — and the max pair at `(0, 0)`; the time axis folds
`end_time_seconds`. -/
theorem computeBounds_axis_folds (data : List TimeseriesResult) :
    (computeBounds data).mins.1 =
      (data.map (·.end_time_seconds)).foldl F64.min f64MAX ∧
    (computeBounds data).mins.2 = (data.map (·.value)).foldl F64.min f64MAX ∧
    (computeBounds data).maxes.1 =
      (data.map (·.end_time_seconds)).foldl F64.max (F64.fin 0) ∧
    (computeBounds data).maxes.2 = (data.map (·.value)).foldl F64.max (F64.fin 0) := by
  simp [computeBounds, boundsFold_proj]

/-- C6 counterexample: on an empty response the min seed leaks through as the
result, and it is `f64::MAX`, not the `(+infinity, +infinity)` pair the claim
states (`specMinSeed`, written from the spec's words). -/
theorem bounds_seed_not_infinity :
    (computeBounds []).mins = (f64MAX, f64MAX) ∧
    (computeBounds []).mins ≠ specMinSeed := by
  exact ⟨rfl, by decide⟩

theorem buildFacetsStep_pos {facets : List (List Char × List (F64 × F64))}
    {data : TimeseriesResult} (h : (alookup facets data.facet).isSome = true) :
    buildFacetsStep facets data =
      assocUpdate facets data.facet fun v => v ++ [(data.end_time_seconds, data.value)] := by
  unfold buildFacetsStep
  rw [if_pos h]

theorem buildFacetsStep_neg {facets : List (List Char × List (F64 × F64))}
    {data : TimeseriesResult} (h : ¬ (alookup facets data.facet).isSome = true) :
    buildFacetsStep facets data =
      facets ++ [(data.facet, [(data.begin_time_seconds, data.value)])] := by
  unfold buildFacetsStep
  rw [if_neg h]

theorem buildFacets_go (rows : List TimeseriesResult)
    (acc : List (List Char × List (F64 × F64))) (key : List Char) :
    alookup (rows.foldl buildFacetsStep acc) key =
      match alookup acc key with
      | some v =>
        some (v ++ (rows.filter fun r => decide (r.facet = key)).map
          fun x => (x.end_time_seconds, x.value))
      | none =>
        match rows.filter fun r => decide (r.facet = key) with
        | [] => none
        | r :: rest =>
          some ((r.begin_time_seconds, r.value) ::
            rest.map fun x => (x.end_time_seconds, x.value)) := by
  induction rows generalizing acc with
  | nil =>
    cases h : alookup acc key with
    | none => simp [h]
    | some v => simp [h]
  | cons x xs ih =>
    rw [List.foldl_cons, List.filter_cons]
    by_cases hx : (alookup acc x.facet).isSome
    · rw [buildFacetsStep_pos hx, ih]
      obtain ⟨v0, hv0⟩ := Option.isSome_iff_exists.mp hx
      by_cases hkey : x.facet = key
      · subst hkey
        rw [alookup_assocUpdate_self, hv0]
        simp [hv0, List.append_assoc]
      · rw [alookup_assocUpdate, if_neg hkey]
        simp [hkey]
    · rw [buildFacetsStep_neg hx, ih]
      have hx0 : alookup acc x.facet = none := Option.not_isSome_iff_eq_none.mp hx
      by_cases hkey : x.facet = key
      · subst hkey
        rw [alookup_append_single, hx0]
        simp [hx0]
      · rw [alookup_append_single]
        cases h2 : alookup acc key with
        | none => simp [hkey, h2]
        | some v => simp [hkey, h2]

/-- C8: in the per-group reduction, the first point recorded for a group-key
takes its timestamp from `begin_time_seconds`, every later point appended to
that group takes it from `end_time_seconds`, and `end_time_seconds` is also
the field folded into the time-axis bounds. -/
theorem facet_first_point_begin_time (rows : List TimeseriesResult) (key : List Char) :
    alookup (buildFacets rows) key =
      (match rows.filter fun r => decide (r.facet = key) with
       | [] => none
       | r :: rest =>
         some ((r.begin_time_seconds, r.value) ::
           rest.map fun x => (x.end_time_seconds, x.value))) ∧
    (computeBounds rows).mins.1 =
      (rows.map (·.end_time_seconds)).foldl F64.min f64MAX ∧
    (computeBounds rows).maxes.1 =
      (rows.map (·.end_time_seconds)).foldl F64.max (F64.fin 0) := by
  refine ⟨?_, ?_, ?_⟩
  · rw [buildFacets, buildFacets_go]
    rfl
  · unfold computeBounds
    simp only [boundsFold_proj]
  · unfold computeBounds
    simp only [boundsFold_proj]

/-! ## C9: the tab invariant -/

theorem focusStep_tab {s t : UIFocus} (h : FocusStep s t) (hl : s.tab = Tab.Logs) :
    t.tab = Tab.Logs := by
  cases h <;> simp_all [next_tab, previous_tab]

/-- C9: every focus state reachable from the initial UI state keeps
`tab = Logs`: the default tab is `Logs`, `next_tab`/`previous_tab` map `Logs`
to `Logs`, and every other focus transition of the control loop preserves the
tab — the Graph tab is unreachable. -/
theorem reachable_tab_logs (s : UIFocus) (h : ReachableFocus s) :
    s.tab = Tab.Logs ∧ s.tab ≠ Tab.Graph := by
  have hl : s.tab = Tab.Logs := by
    induction h with
    | init => rfl
    | step hr hs ih => exact focusStep_tab hs ih
  exact ⟨hl, by rw [hl]; decide⟩

/-- Witness for C9 at the initial state. -/
theorem reachable_tab_logs_witness :
    UIFocus.default.tab = Tab.Logs ∧ UIFocus.default.tab ≠ Tab.Graph :=
  reachable_tab_logs UIFocus.default ReachableFocus.init

/-! ## C7: the correlation token -/

theorem splitSp_ne_nil (l : List Char) : splitSp l ≠ [] := by
  cases l with
  | nil => simp [splitSp]
  | cons c cs =>
    unfold splitSp
    by_cases hc : c = ' '
    · simp [hc]
    · rw [if_neg hc]
      cases splitSp cs <;> simp

theorem correlation_id_eq (line : List Char) :
    ∃ tok, (splitSp line).getLast? = some tok ∧
      correlation_id line = some (trim_matches is_ascii_punctuation tok) := by
  cases hg : (splitSp line).getLast? with
  | none => exact absurd (List.getLast?_eq_none_iff.mp hg) (splitSp_ne_nil line)
  | some tok =>
    refine ⟨tok, rfl, ?_⟩
    unfold correlation_id
    rw [hg]

theorem str_contains_append_mid (a b c : List Char) :
    str_contains (a ++ (b ++ c)) b = true := by
  unfold str_contains
  rw [List.any_eq_true]
  refine ⟨b ++ c, ?_, ?_⟩
  · exact (List.mem_tails _ _).mpr ⟨a, rfl⟩
  · exact (isPrefixOf_iff_pfx _ _).mpr ⟨c, rfl⟩

/-- C7 (corrected): pressing Enter in the log-detail view builds the
correlation query from the last space-delimited token of the selected line
with ASCII punctuation stripped from BOTH ends — leading punctuation is
removed too, not only trailing — and the submitted query contains that
stripped token. -/
theorem correlation_query_token (line : List Char) :
    ∃ tok, (splitSp line).getLast? = some tok ∧
      log_detail_enter line =
        some (mkCorrelationQuery (trim_matches is_ascii_punctuation tok)) ∧
      str_contains (mkCorrelationQuery (trim_matches is_ascii_punctuation tok))
        (trim_matches is_ascii_punctuation tok) = true := by
  obtain ⟨tok, h1, h2⟩ := correlation_id_eq line
  refine ⟨tok, h1, ?_, ?_⟩
  · unfold log_detail_enter
    rw [h2]
    rfl
  · have heq : mkCorrelationQuery (trim_matches is_ascii_punctuation tok) =
        ("SELECT * FROM Log WHERE allColumnSearch(".toList ++ [squote]) ++
          ((trim_matches is_ascii_punctuation tok) ++
            ([squote] ++ ", insensitive: true)".toList)) := by
      simp [mkCorrelationQuery, List.append_assoc]
    rw [heq]
    exact str_contains_append_mid _ _ _

/-- C7 counterexample: for the line "error (abc)." the last token is
"(abc)."; the handler produces "abc" — the leading parenthesis is removed —
whereas stripping only trailing punctuation would give "(abc". -/
theorem correlation_token_leading_punct_stripped :
    correlation_id "error (abc).".toList = some "abc".toList ∧
    some "abc".toList ≠ some "(abc".toList := by
  exact ⟨rfl, by decide⟩

end Urelic
